import Mathlib

/-!
A shallow embedding of the APIU backend (FastAPI + SQLAlchemy + Redis) core:
the entity mutators, the audit-history appends and the cache layer, translated
from `src/admin/routes.py`, `src/article/routes.py`, `src/task/routes.py`,
`src/user/routes.py`, `src/auth/routes.py` and `src/db/models.py`.

Modelling conventions:
* the relational store is an explicit `DB` value (lists of rows); one endpoint
  call is a pure function from the pre-state to `Except Err (DB × response)`:
  an `.ok` result is the committed transaction, an `.error` result is the
  rolled-back transaction (SQLAlchemy `await db.rollback()` restores the
  pre-state, so an error carries no state);
* the Redis cache is an explicit association list of entries; endpoints that
  touch Redis return the resulting cache alongside the `Except`, because cache
  operations are not transactional with the database;
* timestamps (`datetime.utcnow()`) are natural numbers counting seconds; the
  current time is passed in where the code calls `utcnow()`;
* uploaded files are represented by the stored path/URL string the file-storage
  collaborator returns (the core only records that reference — spec §6);
* `current_user` (the FastAPI `get_current_user` dependency) is passed in as a
  `User` argument: the spec treats the session service as an external
  collaborator whose identity/role the core trusts unconditionally.
-/

namespace APIU

/-- Source `src/task/enums.py` (re-exported by `src/db/models.py`): task status enum.
Column default is `TaskStatus.ACTIVE`. -/
inductive TaskStatus where
  | ACTIVE
  | POSTPONED
  | COMPLETED
deriving DecidableEq, Repr

/-- Source `src/task/enums.py`: task priority enum. Column default is `MEDIUM`. -/
inductive TaskPriority where
  | LOW
  | MEDIUM
  | HIGH
deriving DecidableEq, Repr

/-- A primitive JSON value as it appears in history `changes` payloads. -/
inductive Prim where
  | str (v : String)
  | num (v : Nat)
  | null
deriving DecidableEq, Repr

/-- One value of a history `changes` dict: either a plain value (creation
snapshots, image paths, reassignment fields) or an `{old, new}` pair. -/
inductive CVal where
  | v (p : Prim)
  | oldNew (o n : Prim)
deriving DecidableEq, Repr

/-- A `changes` JSON dict: insertion-ordered field-name/value pairs. -/
abbrev ChangeMap := List (String × CVal)

def optStr : Option String → Prim
  | none => .null
  | some s => .str s

def optNum : Option Nat → Prim
  | none => .null
  | some n => .num n

/-- Source `src/db/models.py` `User` row (columns relevant to the core; the
counters/`registered_at` columns are never read or written by the endpoints
modelled here). -/
structure User where
  user_id : Nat
  username : String
  full_name : String
  email : String
  hashed_password : String
  role_id : Nat
  avatar_url : Option String
  is_deleted : Bool
  deleted_at : Option Nat
  shift : String
deriving DecidableEq, Repr

/-- Source `src/db/models.py` `Task` row. -/
structure Task where
  id : Nat
  title : String
  description : Option String
  status : TaskStatus
  priority : TaskPriority
  due_date : Option Nat
  author_id : Nat
  assignee_id : Nat
  is_deleted : Bool
  deleted_at : Option Nat
deriving DecidableEq, Repr

/-- Source `src/db/models.py` `TaskHistory` row: the `changes` column is a JSON
column, so its constructor accepts any dict. -/
structure TaskHistory where
  task_id : Nat
  user_id : Nat
  event : String
  changes : ChangeMap
deriving DecidableEq, Repr

/-- Source `src/db/models.py` `Article` row. -/
structure Article where
  id : Nat
  title : String
  content : String
  author_id : Nat
  is_deleted : Bool
  deleted_at : Option Nat
deriving DecidableEq, Repr

/-- Source `src/db/models.py` `ArticleImage` row. -/
structure ArticleImage where
  article_id : Nat
  image_path : String
deriving DecidableEq, Repr

/-- A keyword argument passed to the `ArticleHistory` mapped constructor:
either a primitive column value or a JSON dict (which is what
`article/routes.py` passes under the nonexistent `changes` keyword). -/
inductive KwVal where
  | p (v : Prim)
  | jmap (m : ChangeMap)
deriving DecidableEq, Repr

/-- Source `src/db/models.py` `ArticleHistory` row. Unlike `TaskHistory` it has **no**
`changes` JSON column: its payload columns are `old_title`, `new_title`,
`old_content`, `new_content`. We keep the accepted keyword arguments as an
association list so that construction is uniform across call sites. -/
structure ArticleHistory where
  article_id : Nat
  user_id : Nat
  event : String
  fields : List (String × KwVal)
deriving DecidableEq, Repr

/-- The optional payload columns the `ArticleHistory` mapped constructor
accepts (beyond `article_id`/`user_id`/`event`), per `src/db/models.py`. -/
def articleHistoryCols : List String :=
  ["old_title", "new_title", "old_content", "new_content"]

/-- Errors observable at the HTTP boundary, plus Python-level exceptions
(`TypeError`) that the route wrappers convert to HTTP 500. -/
inductive Err where
  | http (code : Nat) (detail : String)
  | typeError (msg : String)
deriving DecidableEq, Repr

/-- The SQLAlchemy declarative constructor: passing a keyword that is not a
mapped column raises `TypeError`. `article/routes.py` passes `changes=` at
three call sites although `ArticleHistory` has no such column. -/
def mkArticleHistory (article_id user_id : Nat) (event : String)
    (kwargs : List (String × KwVal)) : Except Err ArticleHistory :=
  if kwargs.all (fun kv => articleHistoryCols.contains kv.1) then
    .ok { article_id := article_id, user_id := user_id, event := event,
          fields := kwargs }
  else
    .error (.typeError "invalid keyword argument for ArticleHistory")

/-- The authoritative relational store: one list of rows per table. -/
structure DB where
  users : List User
  tasks : List Task
  articles : List Article
  taskHistory : List TaskHistory
  articleHistory : List ArticleHistory
  articleImages : List ArticleImage
deriving DecidableEq, Repr

/-- Autoincrement primary key for a freshly flushed `Task` row. -/
def nextTaskId (db : DB) : Nat := (db.tasks.map Task.id).foldr max 0 + 1

/-- Autoincrement primary key for a freshly flushed `Article` row. -/
def nextArticleId (db : DB) : Nat := (db.articles.map Article.id).foldr max 0 + 1

/-- The committed post-state of an endpoint call: an `.ok` result carries the
committed state, an `.error` result means the transaction rolled back and the
pre-state stands. -/
def newDB {α : Type} (db : DB) : Except Err (DB × α) → DB
  | .ok (db', _) => db'
  | .error _ => db

/-! ## Task routes (`src/task/routes.py`) -/

/-- Constant `ADMIN_ROLE_ID = 2` in `task/routes.py` (the same literal is used inline
in the admin, article and user routes). -/
def ADMIN_ROLE_ID : Nat := 2

/-- Source `task/routes.py` `verify_assignee`: the assignee must exist and not be
soft-deleted, else HTTP 404 "Исполнитель не найден". -/
def verify_assignee (db : DB) (assignee_id : Nat) : Except Err User :=
  match db.users.find? (fun u => u.user_id == assignee_id && u.is_deleted == false) with
  | some u => .ok u
  | none => .error (.http 404 "Исполнитель не найден")

/-- The `except Exception as e: await db.rollback(); raise HTTPException(500, ...)`
wrapper around every task endpoint body. It catches *every* exception —
including the `HTTPException`s the body itself raised (FastAPI's
`HTTPException` subclasses `Exception`) — and re-raises HTTP 500 with the
given message prefix. -/
def wrap500 {α : Type} (detail : String) : Except Err α → Except Err α
  | .ok a => .ok a
  | .error _ => .error (.http 500 detail)

/-- The wrapper pair used by `article/routes.py`:
`except HTTPException: raise` followed by `except Exception: rollback; 500`.
HTTP errors propagate unchanged; Python-level exceptions become HTTP 500. -/
def wrapArticle {α : Type} (detail : String) : Except Err α → Except Err α
  | .ok a => .ok a
  | .error (.http c d) => .error (.http c d)
  | .error (.typeError _) => .error (.http 500 detail)

/-- Record `TaskHistory(..., event="IMAGE_ADDED", changes={"image": file_path})`,
one per uploaded image. -/
def imageRecord (task_id user_id : Nat) (path : String) : TaskHistory :=
  { task_id := task_id, user_id := user_id, event := "IMAGE_ADDED",
    changes := [("image", .v (.str path))] }

/-- Endpoint `POST /tasks/` (`create_task`): verify the assignee, insert the task (status
and priority take their column defaults), write one `IMAGE_ADDED` record per
uploaded image and one `TASK_CREATED` record whose `changes` is the `task_data`
dict, all committed together. -/
def create_task (title : String) (description : Option String)
    (assignee_id : Nat) (due_date : Option Nat) (images : List String)
    (current_user : User) (db : DB) : Except Err (DB × Task) :=
  wrap500 "Ошибка при создании задачи" <|
  match verify_assignee db assignee_id with
  | .error e => .error e
  | .ok _ =>
    let tid := nextTaskId db
    let task : Task :=
      { id := tid, title := title, description := description,
        status := .ACTIVE, priority := .MEDIUM, due_date := due_date,
        author_id := current_user.user_id, assignee_id := assignee_id,
        is_deleted := false, deleted_at := none }
    let task_data : ChangeMap :=
      [("title", .v (.str title)), ("description", .v (optStr description)),
       ("assignee_id", .v (.num assignee_id)), ("due_date", .v (optNum due_date)),
       ("author_id", .v (.num current_user.user_id))]
    let imageRecs := images.map (imageRecord tid current_user.user_id)
    let created : TaskHistory :=
      { task_id := tid, user_id := current_user.user_id,
        event := "TASK_CREATED", changes := task_data }
    .ok ({ db with
            tasks := db.tasks ++ [task],
            taskHistory := db.taskHistory ++ imageRecs ++ [created] }, task)

/-- The in-transaction accumulator of `update_task`: the task object being
mutated in place, and the `changes` dict built alongside it. -/
structure UpdAcc where
  task : Task
  changes : ChangeMap
deriving DecidableEq, Repr

/-- In `update_task`, title step: `if title and title != task.title` (Python
truthiness: the empty string is skipped). -/
def stepTitle (acc : UpdAcc) : Option String → UpdAcc
  | none => acc
  | some t =>
    if t ≠ "" ∧ t ≠ acc.task.title then
      { task := { acc.task with title := t },
        changes := acc.changes ++ [("title", .oldNew (.str acc.task.title) (.str t))] }
    else acc

/-- In `update_task`, description step:
`if description is not None and description != task.description`. -/
def stepDescription (acc : UpdAcc) : Option String → UpdAcc
  | none => acc
  | some d =>
    if acc.task.description ≠ some d then
      { task := { acc.task with description := some d },
        changes := acc.changes ++
          [("description", .oldNew (optStr acc.task.description) (.str d))] }
    else acc

/-- In `update_task`, assignee step: `if assignee_id and assignee_id != task.assignee_id`
(0 is falsy), then `verify_assignee` — existence and non-deletion are checked,
but **no shift comparison** is made on this path. -/
def stepAssignee (db : DB) (acc : UpdAcc) : Option Nat → Except Err UpdAcc
  | none => .ok acc
  | some a =>
    if a ≠ 0 ∧ a ≠ acc.task.assignee_id then
      match verify_assignee db a with
      | .error e => .error e
      | .ok _ =>
        .ok { task := { acc.task with assignee_id := a },
              changes := acc.changes ++
                [("assignee_id", .oldNew (.num acc.task.assignee_id) (.num a))] }
    else .ok acc

/-- In `update_task`, due-date step: `if due_date is not None` then compare the
timezone-stripped value with the stored one. -/
def stepDueDate (acc : UpdAcc) : Option Nat → UpdAcc
  | none => acc
  | some d =>
    if acc.task.due_date ≠ some d then
      { task := { acc.task with due_date := some d },
        changes := acc.changes ++
          [("due_date", .oldNew (optNum acc.task.due_date) (.num d))] }
    else acc

/-- Lines 126-137 of `task/routes.py`: the final `changes` dict — if images
were uploaded and no field changed, an `images` marker entry is inserted into
the otherwise empty dict. -/
def updChanges (images : List String) (cm : ChangeMap) : ChangeMap :=
  if images ≠ [] ∧ cm = [] then
    [("images", CVal.v (.str "добавлены новые изображения"))]
  else cm

/-- Lines 139-145 of `task/routes.py`: one `TASK_UPDATED` record iff the
`changes` dict is non-empty. -/
def updRecs (task_id user_id : Nat) (cm : ChangeMap) : List TaskHistory :=
  if cm ≠ [] then
    [{ task_id := task_id, user_id := user_id, event := "TASK_UPDATED", changes := cm }]
  else []

/-- The committed post-state of a successful `update_task` call: the mutated
row replaces the loaded one, and the history table gains the `IMAGE_ADDED`
records followed by the optional `TASK_UPDATED` record. -/
def update_task_commit (db : DB) (task_id : Nat) (task : Task) (acc : UpdAcc)
    (images : List String) (current_user : User) : DB × Task :=
  ({ db with
      tasks := db.tasks.map (fun t => if t.id == task_id then acc.task else t),
      taskHistory := db.taskHistory ++ images.map (imageRecord task.id current_user.user_id)
        ++ updRecs task.id current_user.user_id (updChanges images acc.changes) },
   acc.task)

/-- Endpoint `PUT /tasks/{task_id}` (`update_task`): load the non-deleted task, check
author-or-admin, fold the four field steps, append one `IMAGE_ADDED` record per
image (adding an `images` marker to an otherwise empty `changes` dict), append
one `TASK_UPDATED` record iff `changes` is non-empty, commit. The endpoint
ignores `TaskUpdate.status` entirely: no status field is read or written. -/
def update_task (task_id : Nat) (title description : Option String)
    (assignee_id : Option Nat) (due_date : Option Nat) (images : List String)
    (current_user : User) (db : DB) : Except Err (DB × Task) :=
  wrap500 "Ошибка при обновлении задачи" <|
  match db.tasks.find? (fun t => t.id == task_id && t.is_deleted == false) with
  | none => .error (.http 404 "Задача не найдена")
  | some task =>
    if current_user.role_id ≠ ADMIN_ROLE_ID ∧ task.author_id ≠ current_user.user_id then
      .error (.http 403 "Недостаточно прав")
    else
      match stepAssignee db
          (stepDescription (stepTitle { task := task, changes := [] } title) description)
          assignee_id with
      | .error e => .error e
      | .ok acc₃ =>
        .ok (update_task_commit db task_id task (stepDueDate acc₃ due_date) images current_user)

/-- Endpoint `DELETE /tasks/{task_id}` (`delete_task`): soft-delete — set
`is_deleted = True` and `deleted_at = utcnow()`, append one `TASK_DELETED`
record, commit. -/
def delete_task (task_id : Nat) (now : Nat) (current_user : User) (db : DB) :
    Except Err (DB × String) :=
  wrap500 "Ошибка при удалении задачи" <|
  match db.tasks.find? (fun t => t.id == task_id && t.is_deleted == false) with
  | none => .error (.http 404 "Задача не найдена")
  | some task =>
    if current_user.role_id ≠ ADMIN_ROLE_ID ∧ task.author_id ≠ current_user.user_id then
      .error (.http 403 "Недостаточно прав")
    else
      let task' := { task with is_deleted := true, deleted_at := some now }
      let rec' : TaskHistory :=
        { task_id := task.id, user_id := current_user.user_id,
          event := "TASK_DELETED",
          changes := [("title", .v (.str task.title)),
                      ("description", .v (optStr task.description))] }
      .ok ({ db with
              tasks := db.tasks.map (fun t => if t.id == task_id then task' else t),
              taskHistory := db.taskHistory ++ [rec'] }, "Задача успешно удалена")

/-- Endpoint `PATCH /tasks/{task_id}/reassign` (`reassign_task`): verify the new
assignee exists and is not soft-deleted, load the *current* assignee's shift,
reject a shift mismatch with HTTP 400, then swap the assignee and append one
`REASSIGNED` record. -/
def reassign_task (task_id : Nat) (new_assignee_id : Nat) (comment : Option String)
    (current_user : User) (db : DB) : Except Err (DB × Task) :=
  wrap500 "Ошибка при переназначении задачи" <|
  match db.tasks.find? (fun t => t.id == task_id && t.is_deleted == false) with
  | none => .error (.http 404 "Задача не найдена")
  | some task =>
    if current_user.role_id ≠ ADMIN_ROLE_ID ∧ task.author_id ≠ current_user.user_id then
      .error (.http 403 "Недостаточно прав")
    else
      match verify_assignee db new_assignee_id with
      | .error e => .error e
      | .ok new_assignee =>
      let current_shift := (db.users.find? (fun u => u.user_id == task.assignee_id)).map User.shift
      if some new_assignee.shift ≠ current_shift then
        .error (.http 400 "Нельзя переназначить на другую смену")
      else
        let task' := { task with assignee_id := new_assignee_id }
        let rec' : TaskHistory :=
          { task_id := task.id, user_id := current_user.user_id,
            event := "REASSIGNED",
            changes := [("old_assignee", .v (.num task.assignee_id)),
                        ("new_assignee", .v (.num new_assignee_id)),
                        ("comment", .v (optStr comment))] }
        .ok ({ db with
                tasks := db.tasks.map (fun t => if t.id == task_id then task' else t),
                taskHistory := db.taskHistory ++ [rec'] }, task')

/-- The soft-delete grace window: `timedelta(days=7)` in seconds. -/
def GRACE_SECONDS : Nat := 7 * 24 * 60 * 60

/-- Endpoint `POST /tasks/{task_id}/restore` (`restore_task`): the select only matches a
task with `is_deleted == True` and `deleted_at >= utcnow() - timedelta(days=7)`;
otherwise HTTP 404 "Задача не найдена или срок восстановления истек". On match
(and author-or-admin), reset `is_deleted`/`deleted_at` and append one
`TASK_RESTORED` record. -/
def restore_task (task_id : Nat) (now : Nat) (current_user : User) (db : DB) :
    Except Err (DB × Task) :=
  wrap500 "Ошибка при восстановлении задачи" <|
  match db.tasks.find? (fun t =>
      t.id == task_id && t.is_deleted == true &&
      (match t.deleted_at with
       | some d => decide (d + GRACE_SECONDS ≥ now)
       | none => false)) with
  | none => .error (.http 404 "Задача не найдена или срок восстановления истек")
  | some task =>
    if current_user.role_id ≠ ADMIN_ROLE_ID ∧ task.author_id ≠ current_user.user_id then
      .error (.http 403 "Недостаточно прав")
    else
      let task' := { task with is_deleted := false, deleted_at := none }
      let rec' : TaskHistory :=
        { task_id := task.id, user_id := current_user.user_id,
          event := "TASK_RESTORED",
          changes := [("title", .v (.str task.title)),
                      ("description", .v (optStr task.description))] }
      .ok ({ db with
              tasks := db.tasks.map (fun t => if t.id == task_id then task' else t),
              taskHistory := db.taskHistory ++ [rec'] }, task')

/-! ## Article routes (`src/article/routes.py`) -/

/-- First transaction of `create_article` (`article/routes.py` line 68): the
article row alone is inserted and committed — no history record is part of
this transaction. -/
def create_article_txn1 (title content : String) (current_user : User) (db : DB) :
    DB × Article :=
  let article : Article :=
    { id := nextArticleId db, title := title, content := content,
      author_id := current_user.user_id, is_deleted := false, deleted_at := none }
  ({ db with articles := db.articles ++ [article] }, article)

/-- Second transaction of `create_article` (line 78): the `ArticleImage` rows.
The source commits this only when images were uploaded; with no images the
transition is the identity, so the same function covers both cases. -/
def create_article_txn2 (article_id : Nat) (images : List String) (db : DB) : DB :=
  { db with articleImages :=
      db.articleImages ++ images.map (fun p => ArticleImage.mk article_id p) }

/-- Third transaction of `create_article` (line 92): the `CREATE` history
record, inserted and committed on its own, after the article row is already
durable. Its keyword arguments are real `ArticleHistory` columns, so this
constructor call succeeds. -/
def create_article_txn3 (article_id user_id : Nat) (title content : String)
    (db : DB) : Except Err DB :=
  match mkArticleHistory article_id user_id "CREATE"
      [("old_title", .p .null), ("old_content", .p .null),
       ("new_title", .p (.str title)), ("new_content", .p (.str content))] with
  | .error e => .error e
  | .ok h => .ok { db with articleHistory := db.articleHistory ++ [h] }

/-- Endpoint `POST /articles/` (`create_article`): **three separate commits** —
the entity insert, the image rows, and the history record. The returned `DB`
is the state after the last transaction that committed: a failure in a later
transaction cannot roll back the earlier ones (the source's `rollback` only
discards the open transaction), so the committed prefix is returned alongside
the error, which the blanket `except Exception` there surfaces as HTTP 500. -/
def create_article (title content : String) (images : List String)
    (current_user : User) (db : DB) : DB × Except Err Article :=
  let (db₁, article) := create_article_txn1 title content current_user db
  let db₂ := create_article_txn2 article.id images db₁
  match create_article_txn3 article.id current_user.user_id title content db₂ with
  | .error _ => (db₂, .error (.http 500 "Ошибка при создании статьи"))
  | .ok db₃ => (db₃, .ok article)

/-- In `update_article`, title block: `if title is not None and title != article.title`
(no truthiness here, unlike the task route). -/
def articleTitleStep (st : ChangeMap × Article) : Option String → ChangeMap × Article
  | none => st
  | some t =>
    if t ≠ st.2.title then
      (st.1 ++ [("title", CVal.oldNew (.str st.2.title) (.str t))],
       { st.2 with title := t })
    else st

/-- In `update_article`, content block. -/
def articleContentStep (st : ChangeMap × Article) : Option String → ChangeMap × Article
  | none => st
  | some c =>
    if c ≠ st.2.content then
      (st.1 ++ [("content", CVal.oldNew (.str st.2.content) (.str c))],
       { st.2 with content := c })
    else st

/-- Endpoint `PUT /articles/{article_id}` (`update_article`): load the non-deleted
article, check author-or-admin, build a `changes` dict over `title` and
`content` (`is not None` checks, no truthiness here), add image rows, and — iff
`changes` is non-empty — construct `ArticleHistory(..., changes=changes)`.
That keyword is not a column of `ArticleHistory`, so the constructor raises
`TypeError`, the blanket handler rolls back and raises HTTP 500: an update with
a non-empty diff never commits. -/
def update_article (article_id : Nat) (title content : Option String)
    (images : List String) (current_user : User) (db : DB) :
    Except Err (DB × Article) :=
  wrapArticle "Ошибка при обновлении статьи" <|
  match db.articles.find? (fun a => a.id == article_id && a.is_deleted == false) with
  | none => .error (.http 404 "Статья не найдена")
  | some article =>
    if article.author_id ≠ current_user.user_id ∧ current_user.role_id ≠ ADMIN_ROLE_ID then
      .error (.http 403 "Доступ запрещен")
    else
      let (changes₂, article₂) :=
        articleContentStep (articleTitleStep ([], article) title) content
      let imageRows := images.map (fun p => ArticleImage.mk article.id p)
      let hist : Except Err (List ArticleHistory) :=
        if changes₂ ≠ [] then
          match mkArticleHistory article.id current_user.user_id "UPDATE"
              [("changes", .jmap changes₂)] with
          | .error e => .error e
          | .ok h => .ok [h]
        else .ok []
      match hist with
      | .error e => .error e
      | .ok hs =>
        .ok ({ db with
                articles := db.articles.map (fun a => if a.id == article_id then article₂ else a),
                articleImages := db.articleImages ++ imageRows,
                articleHistory := db.articleHistory ++ hs }, article₂)

/-- Endpoint `DELETE /articles/{article_id}` (`delete_article`): soft-delete plus a
`DELETE` history record — which is also constructed with the nonexistent
`changes` keyword, so the whole call raises 500 and rolls back. -/
def delete_article (article_id : Nat) (now : Nat) (current_user : User) (db : DB) :
    Except Err (DB × String) :=
  wrapArticle "Ошибка при удалении статьи" <|
  match db.articles.find? (fun a => a.id == article_id && a.is_deleted == false) with
  | none => .error (.http 404 "Статья не найдена")
  | some article =>
    if article.author_id ≠ current_user.user_id ∧ current_user.role_id ≠ ADMIN_ROLE_ID then
      .error (.http 403 "Доступ запрещен")
    else
      let article' := { article with is_deleted := true, deleted_at := some now }
      match mkArticleHistory article.id current_user.user_id "DELETE"
          [("changes", .jmap [("status", .v (.str "deleted"))])] with
      | .error e => .error e
      | .ok h =>
      .ok ({ db with
              articles := db.articles.map (fun a => if a.id == article_id then article' else a),
              articleHistory := db.articleHistory ++ [h] }, "Статья успешно удалена")

/-- Endpoint `POST /articles/{article_id}/restore` (`restore_article`): the select only
matches `is_deleted == True` with `deleted_at` inside the 7-day window; on
match (and author-or-admin) it resets the flags and constructs a `RESTORE`
history record — again with the nonexistent `changes` keyword, so the call
raises 500 and the article stays deleted. -/
def restore_article (article_id : Nat) (now : Nat) (current_user : User) (db : DB) :
    Except Err (DB × Article) :=
  wrapArticle "Ошибка при восстановлении статьи" <|
  match db.articles.find? (fun a =>
      a.id == article_id && a.is_deleted == true &&
      (match a.deleted_at with
       | some d => decide (d + GRACE_SECONDS ≥ now)
       | none => false)) with
  | none => .error (.http 404 "Статья не найдена или срок восстановления истек")
  | some article =>
    if article.author_id ≠ current_user.user_id ∧ current_user.role_id ≠ ADMIN_ROLE_ID then
      .error (.http 403 "Доступ запрещен")
    else
      let article' := { article with is_deleted := false, deleted_at := none }
      match mkArticleHistory article.id current_user.user_id "RESTORE"
          [("changes", .jmap [("status", .v (.str "restored"))])] with
      | .error e => .error e
      | .ok h =>
      .ok ({ db with
              articles := db.articles.map (fun a => if a.id == article_id then article' else a),
              articleHistory := db.articleHistory ++ [h] }, article')

/-! ## Cache layer (Redis, as used by `src/user/routes.py` and
`src/admin/routes.py`) -/

/-- A serialized value stored in Redis: either one user's `__dict__` or a
serialized list of users. -/
inductive CacheVal where
  | userJson (u : User)
  | usersJson (l : List User)
deriving DecidableEq, Repr

/-- One Redis entry: key, serialized value, TTL in seconds as set by `setex`. -/
structure CacheEntry where
  key : String
  value : CacheVal
  ttl : Nat
deriving DecidableEq, Repr

/-- The Redis keyspace. -/
abbrev Cache := List CacheEntry

/-- Redis `get key`. -/
def cacheGet (c : Cache) (k : String) : Option CacheVal :=
  (c.find? (fun e => e.key == k)).map CacheEntry.value

/-- Redis `setex key ttl value` (overwrites any entry under the key). -/
def cacheSetex (c : Cache) (k : String) (ttl : Nat) (v : CacheVal) : Cache :=
  { key := k, value := v, ttl := ttl } :: c.filter (fun e => e.key ≠ k)

/-- Redis `delete key`. -/
def cacheDelete (c : Cache) (k : String) : Cache :=
  c.filter (fun e => e.key != k)

/-- Redis `keys pattern*` followed by one `delete` per key, as in
`invalidate_user_cache`. -/
def cacheDeleteByPrefix (c : Cache) (p : String) : Cache :=
  c.filter (fun e => !(p.isPrefixOf e.key))

/-- Source `admin/routes.py` `invalidate_user_cache`: delete the direct
`user_profile:{user_id}` key and every `admin_users:*` key. Nothing else —
in particular no `user_search:*` key — is touched. -/
def invalidate_user_cache (c : Cache) (user_id : Nat) : Cache :=
  cacheDeleteByPrefix (cacheDelete c ("user_profile:" ++ toString user_id)) "admin_users:"

instance {ε α : Type} [DecidableEq ε] [DecidableEq α] : DecidableEq (Except ε α) :=
  fun x y =>
    match x, y with
    | .ok a, .ok b =>
      if h : a = b then .isTrue (by rw [h]) else .isFalse (fun he => by cases he; exact h rfl)
    | .error a, .error b =>
      if h : a = b then .isTrue (by rw [h]) else .isFalse (fun he => by cases he; exact h rfl)
    | .ok _, .error _ => .isFalse (fun he => by cases he)
    | .error _, .ok _ => .isFalse (fun he => by cases he)

/-- The observable outcome of a cached read endpoint: the resulting cache, the
response, and whether the endpoint body queried the authoritative store. -/
structure ReadOut where
  cache : Cache
  result : Except Err CacheVal
  dbQueried : Bool
deriving DecidableEq, Repr

/-! ## User routes (`src/user/routes.py`) -/

/-- Modelled from the spec: `settings.CACHE_EXPIRE_SECONDS` lives in
`src/core/config.py`, which is not among the sources here; the spec's TTL
policy for single-entity profile views is 3600 seconds. -/
def CACHE_EXPIRE_SECONDS : Nat := 3600

/-- A stand-in for Python's process-local `hash(str)` used to build the
search-result cache key (spec §9 warns the hash is not stable; only key
identity within one process matters to the contract). -/
def strHash (s : String) : Nat :=
  s.toList.foldl (fun h c => (h * 31 + c.toNat) % 1000000007) 7

/-- Python `f"{x}"` for an optional value: `None` prints as `"None"`. -/
def pyShowStr : Option String → String
  | none => "None"
  | some s => s

/-- Python `f"{x}"` for an optional integer. -/
def pyShowNat : Option Nat → String
  | none => "None"
  | some n => toString n

/-- Endpoint `GET /user/profile` (`get_profile`): read-through on
`user_profile:{current_user.user_id}`. The body itself never queries the
store — `current_user` was supplied by the session dependency — and on a miss
it caches the current user with TTL `settings.CACHE_EXPIRE_SECONDS`. -/
def get_profile (current_user : User) (cache : Cache) : ReadOut :=
  let k := "user_profile:" ++ toString current_user.user_id
  match cacheGet cache k with
  | some v => { cache := cache, result := .ok v, dbQueried := false }
  | none =>
    { cache := cacheSetex cache k CACHE_EXPIRE_SECONDS (.userJson current_user),
      result := .ok (.userJson current_user), dbQueried := false }

/-- The authoritative-store query of `GET /user/{user_id}`: the user by id,
excluding soft-deleted rows. -/
def userProfileLoader (db : DB) (user_id : Nat) : Option User :=
  db.users.find? (fun u => u.user_id == user_id && u.is_deleted == false)

/-- Endpoint `GET /user/{user_id}` (`get_user_profile`): read-through on
`user_profile:{user_id}`; on miss, load from the store (404 if absent or
soft-deleted, and nothing is cached) and cache the hit with TTL 3600. -/
def get_user_profile (user_id : Nat) (db : DB) (cache : Cache) : ReadOut :=
  let k := "user_profile:" ++ toString user_id
  match cacheGet cache k with
  | some v => { cache := cache, result := .ok v, dbQueried := false }
  | none =>
    match userProfileLoader db user_id with
    | none =>
      { cache := cache, result := .error (.http 404 "Пользователь не найден"),
        dbQueried := true }
    | some u =>
      { cache := cacheSetex cache k 3600 (.userJson u),
        result := .ok (.userJson u), dbQueried := true }

/-- Case-insensitive substring test, modelling SQL `ilike '%pat%'`. -/
def ilikeContains (s pat : String) : Bool :=
  (s.toLower.toList.tails.any (fun t => pat.toLower.toList.isPrefixOf t))

/-- Insertion into a list kept sorted by `username` (`order_by(User.username)`). -/
def insertByUsername (u : User) : List User → List User
  | [] => [u]
  | v :: vs =>
    if u.username ≤ v.username then u :: v :: vs else v :: insertByUsername u vs

def sortByUsername (l : List User) : List User := l.foldr insertByUsername []

/-- The authoritative-store query of `GET /user/search`: non-deleted users,
optional `ilike` filters (Python truthiness — empty strings and `role_id = 0`
are skipped), ordered by username, limited. -/
def searchUsersLoader (db : DB) (username full_name email : Option String)
    (role_id : Option Nat) (limit : Nat) : List User :=
  let base := db.users.filter (fun u =>
    u.is_deleted == false &&
    (match username with | some s => s == "" || ilikeContains u.username s | none => true) &&
    (match full_name with | some s => s == "" || ilikeContains u.full_name s | none => true) &&
    (match email with | some s => s == "" || ilikeContains u.email s | none => true) &&
    (match role_id with | some r => r == 0 || u.role_id == r | none => true))
  (sortByUsername base).take limit

/-- The cache key of `GET /user/search`:
`f"user_search:{hash(f'{username}:{full_name}:{email}:{role_id}:{limit}')}"`. -/
def searchCacheKey (username full_name email : Option String)
    (role_id : Option Nat) (limit : Nat) : String :=
  "user_search:" ++ toString (strHash
    (pyShowStr username ++ ":" ++ pyShowStr full_name ++ ":" ++ pyShowStr email ++
     ":" ++ pyShowNat role_id ++ ":" ++ toString limit))

/-- Endpoint `GET /user/search` (`search_users`): read-through on the hashed-parameter
key; on miss, run the query and cache the serialized list with TTL 300. -/
def search_users (username full_name email : Option String) (role_id : Option Nat)
    (limit : Nat) (db : DB) (cache : Cache) : ReadOut :=
  let k := searchCacheKey username full_name email role_id limit
  match cacheGet cache k with
  | some v => { cache := cache, result := .ok v, dbQueried := false }
  | none =>
    let users := searchUsersLoader db username full_name email role_id limit
    { cache := cacheSetex cache k 300 (.usersJson users),
      result := .ok (.usersJson users), dbQueried := true }

/-- An uploaded avatar file as the core sees it: its extension and byte size
(the bytes themselves go to file storage, an external collaborator). -/
structure Photo where
  ext : String
  size : Nat
deriving DecidableEq, Repr

/-- The avatar extension allow-list shared by `user/routes.py` and
`admin/routes.py`. -/
def allowed_extensions : List String := [".jpg", ".jpeg", ".png", ".gif"]

/-- Limit of 5 MB: `5 * 1024 * 1024`. -/
def MAX_PHOTO_SIZE : Nat := 5 * 1024 * 1024

/-- The avatar upload block shared by `update_profile` and
`admin_update_user`: a disallowed extension is HTTP 400; an oversized file
raises HTTP 400 *inside* the `try` around the file write, which the
`except Exception` there converts to HTTP 500 "Ошибка загрузки файла"; on
success the stored URL (the `uuid4` path segment is elided from the model) is
recorded on the user. -/
def applyPhoto (u : User) : Option Photo → Except Err User
  | none => .ok u
  | some ph =>
    if ¬ allowed_extensions.contains ph.ext then
      .error (.http 400 "Неподдерживаемый формат файла. Допустимые форматы: jpg, jpeg, png, gif")
    else if ph.size > MAX_PHOTO_SIZE then
      .error (.http 500 "Ошибка загрузки файла")
    else
      .ok { u with avatar_url := some ("/uploads/avatar_" ++ toString u.user_id ++ ph.ext) }

/-- In `update_profile`, username block: Python truthiness plus inequality, then
a uniqueness query over **all** users (soft-deleted ones included). -/
def profile_username_step (db : DB) (u : User) : Option String → Except Err User
  | none => .ok u
  | some un =>
    if un ≠ "" ∧ un ≠ u.username then
      if db.users.any (fun v => v.username == un) then
        .error (.http 400 "Имя пользователя уже занято")
      else .ok { u with username := un }
    else .ok u

/-- In `update_profile`, email block. -/
def profile_email_step (db : DB) (u : User) : Option String → Except Err User
  | none => .ok u
  | some em =>
    if em ≠ "" ∧ em ≠ u.email then
      if db.users.any (fun v => v.email == em) then
        .error (.http 400 "Email уже используется")
      else .ok { u with email := em }
    else .ok u

/-- Endpoint `PUT /user/profile` (`update_profile`): the direct `user_profile` key is
deleted *first* — before any validation or the database transaction — then the
username/email uniqueness checks run (HTTP 400 on conflict), the fields are
applied, and the transaction commits. No history record is written, and no
cache key other than the early-deleted direct one is touched. The cache is
returned alongside the result because the early delete survives a failed
request. `UserUpdate.shift` is a required `str` (`user/schemas.py`), so a
request that omits it fails pydantic validation before this handler runs;
the handler therefore always receives a shift value and the source's
`if user_update.shift is not None` guard is always taken. -/
def update_profile (username full_name email : Option String) (shift : String)
    (photo : Option Photo) (current_user : User) (db : DB) (cache : Cache) :
    Cache × Except Err (DB × User) :=
  let cache₁ := cacheDelete cache ("user_profile:" ++ toString current_user.user_id)
  let body : Except Err (DB × User) :=
    match profile_username_step db current_user username with
    | .error e => .error e
    | .ok u₁ =>
      match profile_email_step db u₁ email with
      | .error e => .error e
      | .ok u₂ =>
        let u₃ := match full_name with | some fn => { u₂ with full_name := fn } | none => u₂
        let u₄ := { u₃ with shift := shift }
        match applyPhoto u₄ photo with
        | .error e => .error e
        | .ok u₅ =>
          .ok ({ db with users := db.users.map (fun u =>
                  if u.user_id == current_user.user_id then u₅ else u) }, u₅)
  (cache₁, body)

/-! ## Admin routes (`src/admin/routes.py`) -/

/-- Modelled from the spec: `hash_password` lives in `src/auth/auth.py`, which
is not among the sources here; the spec treats password hashing as an external
collaborator whose algorithm is out of scope, so it is modelled as an opaque
tagging function. -/
def hash_password (p : String) : String := "hashed:" ++ p

/-- The cache key of `GET /admin/users`: `f"admin_users:{role}:{limit}"`. -/
def adminUsersCacheKey (role : Option Nat) (limit : Nat) : String :=
  "admin_users:" ++ pyShowNat role ++ ":" ++ toString limit

/-- The authoritative-store query of `GET /admin/users`: non-deleted users,
optional role filter (truthiness: `role = 0` is skipped), limited. -/
def adminUsersLoader (db : DB) (role : Option Nat) (limit : Nat) : List User :=
  (db.users.filter (fun u =>
    u.is_deleted == false &&
    (match role with | some r => r == 0 || u.role_id == r | none => true))).take limit

/-- Endpoint `GET /admin/users` (`get_users`): admin-only (HTTP 403 otherwise, checked
before the cache), then read-through on `admin_users:{role}:{limit}` with TTL
300 on miss. -/
def get_users (role : Option Nat) (limit : Nat) (db : DB)
    (current_user : User) (cache : Cache) : ReadOut :=
  if current_user.role_id ≠ ADMIN_ROLE_ID then
    { cache := cache,
      result := .error (.http 403 "Доступ запрещен: требуются права администратора"),
      dbQueried := false }
  else
    let k := adminUsersCacheKey role limit
    match cacheGet cache k with
    | some v => { cache := cache, result := .ok v, dbQueried := false }
    | none =>
      let users := adminUsersLoader db role limit
      { cache := cacheSetex cache k 300 (.usersJson users),
        result := .ok (.usersJson users), dbQueried := true }

/-- Endpoint `PUT /admin/users/{user_id}/password` (`update_user_password`): admin-only;
the target must exist and not be soft-deleted; the password hash is replaced
and committed — **no history record is written** — then `invalidate_user_cache`
runs. On any error the cache is untouched. -/
def update_user_password (user_id : Nat) (new_password : String) (db : DB)
    (current_user : User) (cache : Cache) : Cache × Except Err (DB × String) :=
  if current_user.role_id ≠ ADMIN_ROLE_ID then
    (cache, .error (.http 403 "Доступ запрещен"))
  else
    match db.users.find? (fun u => u.user_id == user_id && u.is_deleted == false) with
    | none => (cache, .error (.http 404 "Пользователь не найден"))
    | some u =>
      let u' := { u with hashed_password := hash_password new_password }
      let db' := { db with users := db.users.map (fun v =>
                     if v.user_id == user_id then u' else v) }
      (invalidate_user_cache cache user_id, .ok (db', "Пароль успешно обновлен"))

/-- Endpoint `DELETE /admin/users/{user_id}` (`delete_user`): admin-only soft delete —
`is_deleted = True`, `deleted_at = func.now()` — committed **without any
history record**, then `invalidate_user_cache`. -/
def delete_user (user_id : Nat) (now : Nat) (db : DB)
    (current_user : User) (cache : Cache) : Cache × Except Err (DB × String) :=
  if current_user.role_id ≠ ADMIN_ROLE_ID then
    (cache, .error (.http 403 "Доступ запрещен"))
  else
    match db.users.find? (fun u => u.user_id == user_id && u.is_deleted == false) with
    | none => (cache, .error (.http 404 "Пользователь не найден"))
    | some u =>
      let u' := { u with is_deleted := true, deleted_at := some now }
      let db' := { db with users := db.users.map (fun v =>
                     if v.user_id == user_id then u' else v) }
      (invalidate_user_cache cache user_id, .ok (db', "Пользователь успешно удален"))

/-- In `admin_update_user`, username block: like the profile one, but the
uniqueness query excludes the target itself (`User.user_id != user_id`). -/
def admin_username_step (db : DB) (user_id : Nat) (u : User) :
    Option String → Except Err User
  | none => .ok u
  | some un =>
    if un ≠ "" ∧ un ≠ u.username then
      if db.users.any (fun v => v.username == un && v.user_id != user_id) then
        .error (.http 400 "Имя пользователя уже занято")
      else .ok { u with username := un }
    else .ok u

/-- In `admin_update_user`, email block. -/
def admin_email_step (db : DB) (user_id : Nat) (u : User) :
    Option String → Except Err User
  | none => .ok u
  | some em =>
    if em ≠ "" ∧ em ≠ u.email then
      if db.users.any (fun v => v.email == em && v.user_id != user_id) then
        .error (.http 400 "Email уже используется")
      else .ok { u with email := em }
    else .ok u

/-- Endpoint `PUT /admin/users/{user_id}` (`admin_update_user`): admin-only; the target
is fetched by primary key (`db.get` — soft-deleted rows are *not* excluded
here); username/email are changed behind uniqueness checks that exclude the
target itself (HTTP 400 on conflict), `full_name`/`shift` unconditionally when
supplied, plus the shared avatar block; commit — again with no history
record — then `invalidate_user_cache`. -/
def admin_update_user (user_id : Nat) (username full_name email shift : Option String)
    (photo : Option Photo) (db : DB) (current_user : User) (cache : Cache) :
    Cache × Except Err (DB × User) :=
  if current_user.role_id ≠ ADMIN_ROLE_ID then
    (cache, .error (.http 403 "Доступ запрещен: требуются права администратора"))
  else
    match db.users.find? (fun u => u.user_id == user_id) with
    | none => (cache, .error (.http 404 "Пользователь не найден"))
    | some target =>
      let body : Except Err (DB × User) :=
        match admin_username_step db user_id target username with
        | .error e => .error e
        | .ok u₁ =>
          match admin_email_step db user_id u₁ email with
          | .error e => .error e
          | .ok u₂ =>
            let u₃ := match full_name with | some fn => { u₂ with full_name := fn } | none => u₂
            let u₄ := match shift with | some sh => { u₃ with shift := sh } | none => u₃
            match applyPhoto u₄ photo with
            | .error e => .error e
            | .ok u₅ =>
              .ok ({ db with users := db.users.map (fun u =>
                      if u.user_id == user_id then u₅ else u) }, u₅)
      match body with
      | .ok r => (invalidate_user_cache cache user_id, .ok r)
      | .error e => (cache, .error e)

/-! ## Registration (`src/auth/routes.py`) -/

/-- Autoincrement primary key for a freshly inserted `User` row. -/
def nextUserId (db : DB) : Nat := (db.users.map User.user_id).foldr max 0 + 1

/-- Endpoint `POST /auth/register` (`register`): reject an existing email or username
(the HTTP 400 is swallowed by the blanket handler into HTTP 500
"Ошибка сервера при регистрации"), else insert a `User` with `role_id = 1` and
the column defaults `is_deleted = False`, `deleted_at = NULL`. Token issuance
and the session cookie belong to the session collaborator and are elided. -/
def register (username full_name email password shift : String) (db : DB) :
    Except Err (DB × User) :=
  wrap500 "Ошибка сервера при регистрации" <|
    if db.users.any (fun u => u.email == email || u.username == username) then
      .error (.http 400 "Email или имя пользователя уже зарегистрированы")
    else
      let u : User :=
        { user_id := nextUserId db, username := username, full_name := full_name,
          email := email, hashed_password := hash_password password,
          role_id := 1, avatar_url := none, is_deleted := false,
          deleted_at := none, shift := shift }
      .ok ({ db with users := db.users ++ [u] }, u)

/-! ## Concrete fixtures used by counterexamples and witnesses -/

/-- A regular user on the morning shift; author and assignee of `task1`. -/
def alice : User :=
  { user_id := 1, username := "alice", full_name := "Алиса", email := "alice@ex.com",
    hashed_password := "h1", role_id := 1, avatar_url := none,
    is_deleted := false, deleted_at := none, shift := "morning" }

/-- A regular user on the evening shift. -/
def bob : User :=
  { user_id := 2, username := "bob", full_name := "Боб", email := "bob@ex.com",
    hashed_password := "h2", role_id := 1, avatar_url := none,
    is_deleted := false, deleted_at := none, shift := "evening" }

/-- An administrator (`role_id = 2`). -/
def adminUser : User :=
  { user_id := 3, username := "root", full_name := "Админ", email := "root@ex.com",
    hashed_password := "h3", role_id := 2, avatar_url := none,
    is_deleted := false, deleted_at := none, shift := "morning" }

/-- A live task authored by and assigned to `alice`. -/
def task1 : Task :=
  { id := 1, title := "Fix pump", description := none, status := .ACTIVE,
    priority := .MEDIUM, due_date := none, author_id := 1, assignee_id := 1,
    is_deleted := false, deleted_at := none }

/-- A task soft-deleted at time 100. -/
def task2 : Task :=
  { id := 2, title := "Old task", description := some "d", status := .ACTIVE,
    priority := .MEDIUM, due_date := none, author_id := 1, assignee_id := 1,
    is_deleted := true, deleted_at := some 100 }

/-- A live article authored by `alice`. -/
def article1 : Article :=
  { id := 1, title := "Old", content := "Body", author_id := 1,
    is_deleted := false, deleted_at := none }

/-- An article soft-deleted at time 100. -/
def article2 : Article :=
  { id := 2, title := "Gone", content := "Body2", author_id := 1,
    is_deleted := true, deleted_at := some 100 }

/-- The base database fixture. -/
def db0 : DB :=
  { users := [alice, bob, adminUser], tasks := [task1, task2],
    articles := [article1, article2], taskHistory := [], articleHistory := [],
    articleImages := [] }

example : verify_assignee db0 2 = .ok bob := by decide
example : verify_assignee db0 9 = .error (.http 404 "Исполнитель не найден") := by decide

/-! ## Helper lemmas -/

theorem wrap500_ok {α : Type} {d : String} {r : Except Err α} {a : α} :
    wrap500 d r = .ok a ↔ r = .ok a := by
  cases r <;> simp [wrap500]

theorem wrapArticle_ok {α : Type} {d : String} {r : Except Err α} {a : α} :
    wrapArticle d r = .ok a ↔ r = .ok a := by
  cases r with
  | ok _ => simp [wrapArticle]
  | error e => cases e <;> simp [wrapArticle]

theorem find?_mem {α : Type} {p : α → Bool} {l : List α} {a : α}
    (h : l.find? p = some a) : a ∈ l :=
  List.mem_of_find?_eq_some h

theorem find?_prop {α : Type} {p : α → Bool} {l : List α} {a : α}
    (h : l.find? p = some a) : p a = true :=
  List.find?_some h

/-- Replacing one element of a list by a `p`-good one preserves `List.all p`. -/
theorem all_map_update {α : Type} (p : α → Bool) (l : List α) (b : α) (c : α → Bool)
    (h : l.all p = true) (hb : p b = true) :
    (l.map fun a => if c a then b else a).all p = true := by
  rw [List.all_eq_true] at h ⊢
  intro x hx
  rcases List.mem_map.mp hx with ⟨a, ha, rfl⟩
  by_cases hc : c a = true
  · simp [hc, hb]
  · simp only [Bool.not_eq_true] at hc
    simp [hc, h a ha]

/-- A pointwise-identity map is the identity. -/
theorem map_id_of_mem {α : Type} {l : List α} {g : α → α}
    (h : ∀ a ∈ l, g a = a) : l.map g = l := by
  induction l with
  | nil => rfl
  | cons hd tl ih =>
    simp only [List.map_cons, h hd (by simp)]
    rw [ih (fun a ha => h a (by simp [ha]))]

/-- Pointwise-equal functions map lists equally. -/
theorem map_congr_mem {α β : Type} {l : List α} {f g : α → β}
    (h : ∀ a ∈ l, f a = g a) : l.map f = l.map g := by
  induction l with
  | nil => rfl
  | cons hd tl ih =>
    simp only [List.map_cons, h hd (by simp)]
    rw [ih (fun a ha => h a (by simp [ha]))]

/-- In a list whose ids are pairwise distinct, two members with equal ids are
equal. -/
theorem nodup_key_inj {α β : Type} {l : List α} {f : α → β}
    (hnd : (l.map f).Nodup) {a b : α} (ha : a ∈ l) (hb : b ∈ l)
    (hf : f a = f b) : a = b :=
  List.inj_on_of_nodup_map hnd ha hb hf

theorem stepTitle_frame (acc : UpdAcc) (x : Option String) :
    (stepTitle acc x).task.id = acc.task.id ∧
    (stepTitle acc x).task.status = acc.task.status ∧
    (stepTitle acc x).task.is_deleted = acc.task.is_deleted ∧
    (stepTitle acc x).task.deleted_at = acc.task.deleted_at := by
  cases x with
  | none => simp [stepTitle]
  | some t =>
    simp only [stepTitle]
    split <;> simp

theorem stepDescription_frame (acc : UpdAcc) (x : Option String) :
    (stepDescription acc x).task.id = acc.task.id ∧
    (stepDescription acc x).task.status = acc.task.status ∧
    (stepDescription acc x).task.is_deleted = acc.task.is_deleted ∧
    (stepDescription acc x).task.deleted_at = acc.task.deleted_at := by
  cases x with
  | none => simp [stepDescription]
  | some t =>
    simp only [stepDescription]
    split <;> simp

theorem stepAssignee_frame {db : DB} {acc acc' : UpdAcc} {x : Option Nat}
    (h : stepAssignee db acc x = .ok acc') :
    acc'.task.id = acc.task.id ∧
    acc'.task.status = acc.task.status ∧
    acc'.task.is_deleted = acc.task.is_deleted ∧
    acc'.task.deleted_at = acc.task.deleted_at := by
  cases x with
  | none =>
    simp only [stepAssignee] at h
    cases h
    simp
  | some a =>
    simp only [stepAssignee] at h
    by_cases hc : (a ≠ 0 ∧ a ≠ acc.task.assignee_id)
    · rw [if_pos hc] at h
      cases hv : verify_assignee db a with
      | ok u => rw [hv] at h; cases h; simp
      | error e => rw [hv] at h; cases h
    · rw [if_neg hc] at h; cases h; simp

theorem stepDueDate_frame (acc : UpdAcc) (x : Option Nat) :
    (stepDueDate acc x).task.id = acc.task.id ∧
    (stepDueDate acc x).task.status = acc.task.status ∧
    (stepDueDate acc x).task.is_deleted = acc.task.is_deleted ∧
    (stepDueDate acc x).task.deleted_at = acc.task.deleted_at := by
  cases x with
  | none => simp [stepDueDate]
  | some t =>
    simp only [stepDueDate]
    split <;> simp

theorem stepTitle_empty {acc : UpdAcc} {x : Option String}
    (h : (stepTitle acc x).changes = []) : stepTitle acc x = acc ∧ acc.changes = [] := by
  cases x with
  | none => exact ⟨rfl, h⟩
  | some t =>
    simp only [stepTitle] at h ⊢
    by_cases hc : (t ≠ "" ∧ t ≠ acc.task.title)
    · rw [if_pos hc] at h; simp at h
    · rw [if_neg hc] at h ⊢; exact ⟨rfl, h⟩

theorem stepDescription_empty {acc : UpdAcc} {x : Option String}
    (h : (stepDescription acc x).changes = []) :
    stepDescription acc x = acc ∧ acc.changes = [] := by
  cases x with
  | none => exact ⟨rfl, h⟩
  | some t =>
    simp only [stepDescription] at h ⊢
    by_cases hc : (acc.task.description ≠ some t)
    · rw [if_pos hc] at h; simp at h
    · rw [if_neg hc] at h ⊢; exact ⟨rfl, h⟩

theorem stepAssignee_empty {db : DB} {acc acc' : UpdAcc} {x : Option Nat}
    (h : stepAssignee db acc x = .ok acc') (he : acc'.changes = []) :
    acc' = acc ∧ acc.changes = [] := by
  cases x with
  | none =>
    simp only [stepAssignee] at h
    cases h
    exact ⟨rfl, he⟩
  | some a =>
    simp only [stepAssignee] at h
    by_cases hc : (a ≠ 0 ∧ a ≠ acc.task.assignee_id)
    · rw [if_pos hc] at h
      cases hv : verify_assignee db a with
      | ok u => rw [hv] at h; cases h; simp at he
      | error e => rw [hv] at h; cases h
    · rw [if_neg hc] at h; cases h; exact ⟨rfl, he⟩

theorem stepDueDate_empty {acc : UpdAcc} {x : Option Nat}
    (h : (stepDueDate acc x).changes = []) : stepDueDate acc x = acc ∧ acc.changes = [] := by
  cases x with
  | none => exact ⟨rfl, h⟩
  | some t =>
    simp only [stepDueDate] at h ⊢
    by_cases hc : (acc.task.due_date ≠ some t)
    · rw [if_pos hc] at h; simp at h
    · rw [if_neg hc] at h ⊢; exact ⟨rfl, h⟩

/-! ### Success-inversion lemmas for the endpoints -/

theorem create_task_ok {ti : String} {de : Option String} {ai : Nat}
    {du : Option Nat} {im : List String} {cu : User} {db db' : DB} {t : Task}
    (h : create_task ti de ai du im cu db = .ok (db', t)) :
    ∃ u, verify_assignee db ai = .ok u ∧
      t = { id := nextTaskId db, title := ti, description := de, status := .ACTIVE,
            priority := .MEDIUM, due_date := du, author_id := cu.user_id,
            assignee_id := ai, is_deleted := false, deleted_at := none } ∧
      db' = { db with
        tasks := db.tasks ++ [t],
        taskHistory := db.taskHistory ++ im.map (imageRecord (nextTaskId db) cu.user_id) ++
          [{ task_id := nextTaskId db, user_id := cu.user_id, event := "TASK_CREATED",
             changes := [("title", .v (.str ti)), ("description", .v (optStr de)),
                         ("assignee_id", .v (.num ai)), ("due_date", .v (optNum du)),
                         ("author_id", .v (.num cu.user_id))] }] } := by
  rw [create_task, wrap500_ok] at h
  cases hv : verify_assignee db ai with
  | error e => rw [hv] at h; cases h
  | ok u =>
    rw [hv] at h
    injection h with h'
    obtain ⟨h1, h2⟩ := Prod.mk.injEq .. ▸ h'
    exact ⟨u, rfl, h2.symm, by rw [← h1, h2]⟩

theorem update_task_ok {tid : Nat} {ti de : Option String} {as du : Option Nat}
    {im : List String} {cu : User} {db db' : DB} {t : Task}
    (h : update_task tid ti de as du im cu db = .ok (db', t)) :
    ∃ task acc₃,
      db.tasks.find? (fun x => x.id == tid && x.is_deleted == false) = some task ∧
      ¬(cu.role_id ≠ ADMIN_ROLE_ID ∧ task.author_id ≠ cu.user_id) ∧
      stepAssignee db (stepDescription (stepTitle { task := task, changes := [] } ti) de) as
        = .ok acc₃ ∧
      (db', t) = update_task_commit db tid task (stepDueDate acc₃ du) im cu := by
  rw [update_task, wrap500_ok] at h
  split at h
  · cases h
  · rename_i task hf
    split at h
    · cases h
    · rename_i ha
      split at h
      · cases h
      · rename_i acc₃ hs
        injection h with h'
        exact ⟨task, acc₃, hf, ha, hs, h'.symm⟩

theorem delete_task_ok {tid now : Nat} {cu : User} {db db' : DB} {r : String}
    (h : delete_task tid now cu db = .ok (db', r)) :
    ∃ task,
      db.tasks.find? (fun x => x.id == tid && x.is_deleted == false) = some task ∧
      ¬(cu.role_id ≠ ADMIN_ROLE_ID ∧ task.author_id ≠ cu.user_id) ∧
      db' = { db with
        tasks := db.tasks.map (fun x =>
          if x.id == tid then { task with is_deleted := true, deleted_at := some now } else x),
        taskHistory := db.taskHistory ++
          [{ task_id := task.id, user_id := cu.user_id, event := "TASK_DELETED",
             changes := [("title", .v (.str task.title)),
                         ("description", .v (optStr task.description))] }] } := by
  rw [delete_task, wrap500_ok] at h
  split at h
  · cases h
  · rename_i task hf
    split at h
    · cases h
    · rename_i ha
      injection h with h'
      obtain ⟨h1, _⟩ := Prod.mk.injEq .. ▸ h'
      exact ⟨task, hf, ha, h1.symm⟩

theorem reassign_task_ok {tid naid : Nat} {com : Option String} {cu : User}
    {db db' : DB} {t : Task}
    (h : reassign_task tid naid com cu db = .ok (db', t)) :
    ∃ task na,
      db.tasks.find? (fun x => x.id == tid && x.is_deleted == false) = some task ∧
      ¬(cu.role_id ≠ ADMIN_ROLE_ID ∧ task.author_id ≠ cu.user_id) ∧
      verify_assignee db naid = .ok na ∧
      some na.shift = (db.users.find? (fun u => u.user_id == task.assignee_id)).map User.shift ∧
      t = { task with assignee_id := naid } ∧
      db' = { db with
        tasks := db.tasks.map (fun x => if x.id == tid then { task with assignee_id := naid } else x),
        taskHistory := db.taskHistory ++
          [{ task_id := task.id, user_id := cu.user_id, event := "REASSIGNED",
             changes := [("old_assignee", .v (.num task.assignee_id)),
                         ("new_assignee", .v (.num naid)),
                         ("comment", .v (optStr com))] }] } := by
  rw [reassign_task, wrap500_ok] at h
  split at h
  · cases h
  · rename_i task hf
    split at h
    · cases h
    · rename_i ha
      split at h
      · cases h
      · rename_i na hv
        simp only [] at h
        split at h
        · cases h
        · rename_i hsh
          rw [not_not] at hsh
          injection h with h'
          obtain ⟨h1, h2⟩ := Prod.mk.injEq .. ▸ h'
          exact ⟨task, na, hf, ha, hv, hsh, h2.symm, h1.symm⟩

theorem restore_task_ok {tid now : Nat} {cu : User} {db db' : DB} {t : Task}
    (h : restore_task tid now cu db = .ok (db', t)) :
    ∃ task,
      db.tasks.find? (fun x =>
        x.id == tid && x.is_deleted == true &&
        (match x.deleted_at with
         | some d => decide (d + GRACE_SECONDS ≥ now)
         | none => false)) = some task ∧
      ¬(cu.role_id ≠ ADMIN_ROLE_ID ∧ task.author_id ≠ cu.user_id) ∧
      t = { task with is_deleted := false, deleted_at := none } ∧
      db' = { db with
        tasks := db.tasks.map (fun x =>
          if x.id == tid then { task with is_deleted := false, deleted_at := none } else x),
        taskHistory := db.taskHistory ++
          [{ task_id := task.id, user_id := cu.user_id, event := "TASK_RESTORED",
             changes := [("title", .v (.str task.title)),
                         ("description", .v (optStr task.description))] }] } := by
  rw [restore_task, wrap500_ok] at h
  split at h
  · cases h
  · rename_i task hf
    split at h
    · cases h
    · rename_i ha
      injection h with h'
      obtain ⟨h1, h2⟩ := Prod.mk.injEq .. ▸ h'
      exact ⟨task, hf, ha, h2.symm, h1.symm⟩

theorem mk_changes_error (aid uid : Nat) (ev : String) (m : ChangeMap) :
    mkArticleHistory aid uid ev [("changes", .jmap m)]
      = .error (.typeError "invalid keyword argument for ArticleHistory") := by
  rfl

theorem articleTitleStep_empty {st : ChangeMap × Article} {x : Option String}
    (h : (articleTitleStep st x).1 = []) : articleTitleStep st x = st ∧ st.1 = [] := by
  cases x with
  | none => exact ⟨rfl, h⟩
  | some t =>
    simp only [articleTitleStep] at h ⊢
    by_cases hc : (t ≠ st.2.title)
    · rw [if_pos hc] at h; simp at h
    · rw [if_neg hc] at h ⊢; exact ⟨rfl, h⟩

theorem articleContentStep_empty {st : ChangeMap × Article} {x : Option String}
    (h : (articleContentStep st x).1 = []) : articleContentStep st x = st ∧ st.1 = [] := by
  cases x with
  | none => exact ⟨rfl, h⟩
  | some c =>
    simp only [articleContentStep] at h ⊢
    by_cases hc : (c ≠ st.2.content)
    · rw [if_pos hc] at h; simp at h
    · rw [if_neg hc] at h ⊢; exact ⟨rfl, h⟩

/-- A successful `update_article` call left the article row unchanged and
wrote no history record: the only successful path is the empty-diff one,
because a non-empty `changes` dict reaches the broken `ArticleHistory`
constructor call. -/
theorem update_article_ok {aid : Nat} {ti co : Option String} {im : List String}
    {cu : User} {db db' : DB} {a : Article}
    (h : update_article aid ti co im cu db = .ok (db', a)) :
    ∃ article,
      db.articles.find? (fun x => x.id == aid && x.is_deleted == false) = some article ∧
      ¬(article.author_id ≠ cu.user_id ∧ cu.role_id ≠ ADMIN_ROLE_ID) ∧
      a = article ∧
      db' = { db with
        articles := db.articles.map (fun x => if x.id == aid then article else x),
        articleImages := db.articleImages ++ im.map (fun p => ArticleImage.mk article.id p) } := by
  rw [update_article, wrapArticle_ok] at h
  split at h
  · cases h
  · rename_i article hf
    split at h
    · cases h
    · rename_i ha
      rcases hst : articleContentStep (articleTitleStep ([], article) ti) co with ⟨cm, art⟩
      rw [hst] at h
      simp only [] at h
      by_cases hcm : cm = []
      · subst hcm
        rw [if_neg (by simp)] at h
        simp only [] at h
        injection h with h'
        obtain ⟨h1, h2⟩ := Prod.mk.injEq .. ▸ h'
        have hc2 : articleContentStep (articleTitleStep ([], article) ti) co
            = articleTitleStep ([], article) ti ∧ (articleTitleStep ([], article) ti).1 = [] :=
          articleContentStep_empty (by rw [hst])
        have hc1 : articleTitleStep ([], article) ti = ([], article)
            ∧ (([] : ChangeMap), article).1 = [] :=
          articleTitleStep_empty hc2.2
        have hart : article = art := by
          have hh := hc1.1.symm.trans (hc2.1.symm.trans hst)
          exact (Prod.mk.injEq .. ▸ hh).2
        refine ⟨article, hf, ha, (hart.trans h2).symm, ?_⟩
        rw [← h1, hart]
        simp
      · rw [if_pos hcm, mk_changes_error] at h
        simp only [] at h
        cases h

/-- Endpoint `delete_article` can never commit: every path to the commit constructs
`ArticleHistory(..., changes=...)`, which raises `TypeError`. -/
theorem delete_article_never_ok (aid now : Nat) (cu : User) (db : DB)
    (x : DB × String) : delete_article aid now cu db ≠ .ok x := by
  intro h
  rw [delete_article, wrapArticle_ok] at h
  split at h
  · cases h
  · rename_i article hf
    split at h
    · cases h
    · rename_i ha
      rw [mk_changes_error] at h
      simp only [] at h
      cases h

/-- Endpoint `restore_article` can never commit, for the same reason. -/
theorem restore_article_never_ok (aid now : Nat) (cu : User) (db : DB)
    (x : DB × Article) : restore_article aid now cu db ≠ .ok x := by
  intro h
  rw [restore_article, wrapArticle_ok] at h
  split at h
  · cases h
  · rename_i article hf
    split at h
    · cases h
    · rename_i ha
      rw [mk_changes_error] at h
      simp only [] at h
      cases h

theorem profile_username_step_frame {db : DB} {u u' : User} {x : Option String}
    (h : profile_username_step db u x = .ok u') :
    u'.user_id = u.user_id ∧ u'.is_deleted = u.is_deleted ∧
    u'.deleted_at = u.deleted_at := by
  cases x with
  | none => cases h; simp
  | some un =>
    simp only [profile_username_step] at h
    split at h
    · split at h
      · cases h
      · cases h; simp
    · cases h; simp

theorem profile_email_step_frame {db : DB} {u u' : User} {x : Option String}
    (h : profile_email_step db u x = .ok u') :
    u'.user_id = u.user_id ∧ u'.is_deleted = u.is_deleted ∧
    u'.deleted_at = u.deleted_at := by
  cases x with
  | none => cases h; simp
  | some em =>
    simp only [profile_email_step] at h
    split at h
    · split at h
      · cases h
      · cases h; simp
    · cases h; simp

theorem admin_username_step_frame {db : DB} {uid : Nat} {u u' : User} {x : Option String}
    (h : admin_username_step db uid u x = .ok u') :
    u'.user_id = u.user_id ∧ u'.is_deleted = u.is_deleted ∧
    u'.deleted_at = u.deleted_at := by
  cases x with
  | none => cases h; simp
  | some un =>
    simp only [admin_username_step] at h
    split at h
    · split at h
      · cases h
      · cases h; simp
    · cases h; simp

theorem admin_email_step_frame {db : DB} {uid : Nat} {u u' : User} {x : Option String}
    (h : admin_email_step db uid u x = .ok u') :
    u'.user_id = u.user_id ∧ u'.is_deleted = u.is_deleted ∧
    u'.deleted_at = u.deleted_at := by
  cases x with
  | none => cases h; simp
  | some em =>
    simp only [admin_email_step] at h
    split at h
    · split at h
      · cases h
      · cases h; simp
    · cases h; simp

theorem applyPhoto_frame {u u' : User} {x : Option Photo}
    (h : applyPhoto u x = .ok u') :
    u'.user_id = u.user_id ∧ u'.is_deleted = u.is_deleted ∧
    u'.deleted_at = u.deleted_at := by
  cases x with
  | none => cases h; simp
  | some ph =>
    simp only [applyPhoto] at h
    split at h
    · cases h
    · split at h
      · cases h
      · cases h; simp

/-- A successful `update_profile` call replaced only the current user's row,
with its soft-delete fields untouched, and wrote no history. -/
theorem update_profile_ok {un fn em : Option String} {sh : String} {ph : Option Photo}
    {cu : User} {db db' : DB} {cache : Cache} {u' : User}
    (h : (update_profile un fn em sh ph cu db cache).2 = .ok (db', u')) :
    u'.user_id = cu.user_id ∧ u'.is_deleted = cu.is_deleted ∧
    u'.deleted_at = cu.deleted_at ∧
    db' = { db with users := db.users.map (fun u =>
              if u.user_id == cu.user_id then u' else u) } := by
  rw [update_profile] at h
  simp only [] at h
  split at h
  · cases h
  · rename_i u₁ h₁
    split at h
    · cases h
    · rename_i u₂ h₂
      split at h
      · cases h
      · rename_i u₅ h₅
        injection h with h'
        obtain ⟨hdb, hu⟩ := Prod.mk.injEq .. ▸ h'
        subst hu
        obtain ⟨f1, f2, f3⟩ := profile_username_step_frame h₁
        obtain ⟨g1, g2, g3⟩ := profile_email_step_frame h₂
        obtain ⟨p1, p2, p3⟩ := applyPhoto_frame h₅
        cases fn <;>
          exact ⟨by simp_all, by simp_all, by simp_all, hdb.symm⟩

/-- A successful `admin_update_user` call: target fetched by primary key,
its row replaced with soft-delete fields untouched, the cache invalidated via
`invalidate_user_cache` after the commit. -/
theorem admin_update_user_ok {uid : Nat} {un fn em sh : Option String}
    {ph : Option Photo} {db db' : DB} {cu : User} {cache c' : Cache} {u' : User}
    (h : admin_update_user uid un fn em sh ph db cu cache = (c', .ok (db', u'))) :
    c' = invalidate_user_cache cache uid ∧
    ∃ target,
      db.users.find? (fun u => u.user_id == uid) = some target ∧
      u'.user_id = target.user_id ∧ u'.is_deleted = target.is_deleted ∧
      u'.deleted_at = target.deleted_at ∧
      db' = { db with users := db.users.map (fun u =>
                if u.user_id == uid then u' else u) } := by
  rw [admin_update_user] at h
  split at h
  · obtain ⟨_, h2⟩ := Prod.mk.injEq .. ▸ h
    cases h2
  · split at h
    · obtain ⟨_, h2⟩ := Prod.mk.injEq .. ▸ h
      cases h2
    · rename_i target hf
      simp only [] at h
      split at h
      · rename_i r hbody
        obtain ⟨h1, h2⟩ := Prod.mk.injEq .. ▸ h
        injection h2 with h2'
        subst h2'
        split at hbody
        · cases hbody
        · rename_i u₁ hu₁
          split at hbody
          · cases hbody
          · rename_i u₂ hu₂
            split at hbody
            · cases hbody
            · rename_i u₅ hu₅
              injection hbody with hb
              obtain ⟨hdb, hu⟩ := Prod.mk.injEq .. ▸ hb
              subst hu
              obtain ⟨f1, f2, f3⟩ := admin_username_step_frame hu₁
              obtain ⟨g1, g2, g3⟩ := admin_email_step_frame hu₂
              obtain ⟨p1, p2, p3⟩ := applyPhoto_frame hu₅
              refine ⟨h1.symm, target, hf, ?_, ?_, ?_, hdb.symm⟩ <;>
                cases fn <;> cases sh <;> simp_all
      · rename_i e hbody
        obtain ⟨_, h2⟩ := Prod.mk.injEq .. ▸ h
        cases h2

/-- A successful `update_user_password` call: hash replaced, soft-delete
fields untouched, no history, cache invalidated after commit. -/
theorem update_user_password_ok {uid : Nat} {pw : String} {db db' : DB}
    {cu : User} {cache c' : Cache} {r : String}
    (h : update_user_password uid pw db cu cache = (c', .ok (db', r))) :
    c' = invalidate_user_cache cache uid ∧
    ∃ u, db.users.find? (fun v => v.user_id == uid && v.is_deleted == false) = some u ∧
      db' = { db with users := db.users.map (fun v =>
                if v.user_id == uid then { u with hashed_password := hash_password pw } else v) } := by
  rw [update_user_password] at h
  split at h
  · obtain ⟨_, h2⟩ := Prod.mk.injEq .. ▸ h
    cases h2
  · split at h
    · obtain ⟨_, h2⟩ := Prod.mk.injEq .. ▸ h
      cases h2
    · rename_i u hf
      obtain ⟨h1, h2⟩ := Prod.mk.injEq .. ▸ h
      injection h2 with h2'
      obtain ⟨hdb, _⟩ := Prod.mk.injEq .. ▸ h2'
      exact ⟨h1.symm, u, hf, hdb.symm⟩

/-- A successful `delete_user` call: the soft-delete pair set coherently, no
history written, cache invalidated after commit. -/
theorem delete_user_ok {uid now : Nat} {db db' : DB} {cu : User}
    {cache c' : Cache} {r : String}
    (h : delete_user uid now db cu cache = (c', .ok (db', r))) :
    c' = invalidate_user_cache cache uid ∧
    ∃ u, db.users.find? (fun v => v.user_id == uid && v.is_deleted == false) = some u ∧
      db' = { db with users := db.users.map (fun v =>
                if v.user_id == uid then { u with is_deleted := true, deleted_at := some now } else v) } := by
  rw [delete_user] at h
  split at h
  · obtain ⟨_, h2⟩ := Prod.mk.injEq .. ▸ h
    cases h2
  · split at h
    · obtain ⟨_, h2⟩ := Prod.mk.injEq .. ▸ h
      cases h2
    · rename_i u hf
      obtain ⟨h1, h2⟩ := Prod.mk.injEq .. ▸ h
      injection h2 with h2'
      obtain ⟨hdb, _⟩ := Prod.mk.injEq .. ▸ h2'
      exact ⟨h1.symm, u, hf, hdb.symm⟩

/-- A successful `register` call appends a user whose soft-delete columns take
their defaults. -/
theorem register_ok {un fn em pw sh : String} {db db' : DB} {u : User}
    (h : register un fn em pw sh db = .ok (db', u)) :
    u.is_deleted = false ∧ u.deleted_at = none ∧
    db' = { db with users := db.users ++ [u] } := by
  rw [register, wrap500_ok] at h
  split at h
  · cases h
  · injection h with h'
    obtain ⟨hdb, hu⟩ := Prod.mk.injEq .. ▸ h'
    subst hu
    exact ⟨rfl, rfl, hdb.symm⟩

/-! ### The soft-delete flag invariant -/

/-- Invariant `is_deleted = false ↔ deleted_at = NULL`, as a boolean on the two columns. -/
def softDelOK (isDel : Bool) (delAt : Option Nat) : Bool := isDel == delAt.isSome

/-- The invariant over every entity row of the store. -/
def dbSDInv (db : DB) : Bool :=
  db.users.all (fun u => softDelOK u.is_deleted u.deleted_at) &&
  db.tasks.all (fun t => softDelOK t.is_deleted t.deleted_at) &&
  db.articles.all (fun a => softDelOK a.is_deleted a.deleted_at)

theorem dbSDInv_split {db : DB} (h : dbSDInv db = true) :
    db.users.all (fun u => softDelOK u.is_deleted u.deleted_at) = true ∧
    db.tasks.all (fun t => softDelOK t.is_deleted t.deleted_at) = true ∧
    db.articles.all (fun a => softDelOK a.is_deleted a.deleted_at) = true := by
  simpa [dbSDInv, Bool.and_eq_true, and_assoc] using h

theorem dbSDInv_mk {us : List User} {ts : List Task} {ar : List Article}
    {th : List TaskHistory} {ah : List ArticleHistory} {ai : List ArticleImage}
    (h1 : us.all (fun u => softDelOK u.is_deleted u.deleted_at) = true)
    (h2 : ts.all (fun t => softDelOK t.is_deleted t.deleted_at) = true)
    (h3 : ar.all (fun a => softDelOK a.is_deleted a.deleted_at) = true) :
    dbSDInv { users := us, tasks := ts, articles := ar, taskHistory := th,
              articleHistory := ah, articleImages := ai } = true := by
  simp only [dbSDInv]
  rw [h1, h2, h3]
  rfl

/-- The four `update_task` field steps touch neither the id, the status nor
the soft-delete columns. -/
theorem upd_acc_frame {db : DB} {task : Task} {ti de : Option String}
    {as : Option Nat} {acc₃ : UpdAcc} (du : Option Nat)
    (hs : stepAssignee db (stepDescription (stepTitle { task := task, changes := [] } ti) de) as
      = .ok acc₃) :
    (stepDueDate acc₃ du).task.id = task.id ∧
    (stepDueDate acc₃ du).task.status = task.status ∧
    (stepDueDate acc₃ du).task.is_deleted = task.is_deleted ∧
    (stepDueDate acc₃ du).task.deleted_at = task.deleted_at := by
  obtain ⟨t1, t2, t3, t4⟩ := stepTitle_frame { task := task, changes := [] } ti
  obtain ⟨d1, d2, d3, d4⟩ :=
    stepDescription_frame (stepTitle { task := task, changes := [] } ti) de
  obtain ⟨a1, a2, a3, a4⟩ := stepAssignee_frame hs
  obtain ⟨u1, u2, u3, u4⟩ := stepDueDate_frame acc₃ du
  refine ⟨?_, ?_, ?_, ?_⟩ <;> simp_all

theorem sdInv_create_task {ti : String} {de : Option String} {ai : Nat}
    {du : Option Nat} {im : List String} {cu : User} {db db' : DB} {t : Task}
    (hinv : dbSDInv db = true) (h : create_task ti de ai du im cu db = .ok (db', t)) :
    dbSDInv db' = true := by
  obtain ⟨u, _, ht, hdb⟩ := create_task_ok h
  obtain ⟨h1, h2, h3⟩ := dbSDInv_split hinv
  subst hdb
  refine dbSDInv_mk h1 ?_ h3
  rw [List.all_append, h2]
  simp [ht, softDelOK]

theorem sdInv_update_task {tid : Nat} {ti de : Option String} {as du : Option Nat}
    {im : List String} {cu : User} {db db' : DB} {t : Task}
    (hinv : dbSDInv db = true) (h : update_task tid ti de as du im cu db = .ok (db', t)) :
    dbSDInv db' = true := by
  obtain ⟨task, acc₃, hf, _, hs, hc⟩ := update_task_ok h
  obtain ⟨hdb, _⟩ := Prod.mk.injEq .. ▸ hc
  obtain ⟨h1, h2, h3⟩ := dbSDInv_split hinv
  obtain ⟨_, _, f3, f4⟩ := upd_acc_frame du hs
  have htask := List.all_eq_true.mp h2 task (find?_mem hf)
  have hgood : softDelOK (stepDueDate acc₃ du).task.is_deleted
      (stepDueDate acc₃ du).task.deleted_at = true := by
    rw [f3, f4]; exact htask
  subst hdb
  refine dbSDInv_mk h1 ?_ h3
  exact all_map_update _ _ _ _ h2 hgood

theorem sdInv_delete_task {tid now : Nat} {cu : User} {db db' : DB} {r : String}
    (hinv : dbSDInv db = true) (h : delete_task tid now cu db = .ok (db', r)) :
    dbSDInv db' = true := by
  obtain ⟨task, hf, _, hdb⟩ := delete_task_ok h
  obtain ⟨h1, h2, h3⟩ := dbSDInv_split hinv
  subst hdb
  refine dbSDInv_mk h1 ?_ h3
  exact all_map_update _ _ _ _ h2 (by simp [softDelOK])

theorem sdInv_reassign_task {tid naid : Nat} {com : Option String} {cu : User}
    {db db' : DB} {t : Task}
    (hinv : dbSDInv db = true) (h : reassign_task tid naid com cu db = .ok (db', t)) :
    dbSDInv db' = true := by
  obtain ⟨task, na, hf, _, _, _, _, hdb⟩ := reassign_task_ok h
  obtain ⟨h1, h2, h3⟩ := dbSDInv_split hinv
  have htask := List.all_eq_true.mp h2 task (find?_mem hf)
  subst hdb
  refine dbSDInv_mk h1 ?_ h3
  exact all_map_update _ _ _ _ h2 (by simpa [softDelOK] using htask)

theorem sdInv_restore_task {tid now : Nat} {cu : User} {db db' : DB} {t : Task}
    (hinv : dbSDInv db = true) (h : restore_task tid now cu db = .ok (db', t)) :
    dbSDInv db' = true := by
  obtain ⟨task, hf, _, _, hdb⟩ := restore_task_ok h
  obtain ⟨h1, h2, h3⟩ := dbSDInv_split hinv
  subst hdb
  refine dbSDInv_mk h1 ?_ h3
  exact all_map_update _ _ _ _ h2 (by simp [softDelOK])

/-- Evaluating the three-commit chain of `create_article`: the `CREATE`
history kwargs are real columns, so the third transaction always commits and
the endpoint returns the fully committed state. -/
theorem create_article_eq (ti co : String) (im : List String) (cu : User) (db : DB) :
    create_article ti co im cu db =
      ({ db with
          articles := db.articles ++
            [{ id := nextArticleId db, title := ti, content := co,
               author_id := cu.user_id, is_deleted := false, deleted_at := none }],
          articleImages := db.articleImages ++
            im.map (fun p => ArticleImage.mk (nextArticleId db) p),
          articleHistory := db.articleHistory ++
            [{ article_id := nextArticleId db, user_id := cu.user_id, event := "CREATE",
               fields := [("old_title", .p .null), ("old_content", .p .null),
                          ("new_title", .p (.str ti)), ("new_content", .p (.str co))] }] },
       .ok { id := nextArticleId db, title := ti, content := co,
             author_id := cu.user_id, is_deleted := false, deleted_at := none }) :=
  rfl

theorem sdInv_create_article {ti co : String} {im : List String} {cu : User}
    {db : DB}
    (hinv : dbSDInv db = true) :
    dbSDInv (create_article ti co im cu db).1 = true := by
  rw [create_article_eq]
  obtain ⟨h1, h2, h3⟩ := dbSDInv_split hinv
  refine dbSDInv_mk h1 h2 ?_
  rw [List.all_append, h3]
  simp [softDelOK]

theorem sdInv_update_article {aid : Nat} {ti co : Option String} {im : List String}
    {cu : User} {db db' : DB} {a : Article}
    (hinv : dbSDInv db = true) (h : update_article aid ti co im cu db = .ok (db', a)) :
    dbSDInv db' = true := by
  obtain ⟨article, hf, _, _, hdb⟩ := update_article_ok h
  obtain ⟨h1, h2, h3⟩ := dbSDInv_split hinv
  have hart := List.all_eq_true.mp h3 article (find?_mem hf)
  subst hdb
  refine dbSDInv_mk h1 h2 ?_
  exact all_map_update _ _ _ _ h3 hart

theorem sdInv_update_profile {un fn em : Option String} {sh : String} {ph : Option Photo}
    {cu : User} {db db' : DB} {cache : Cache} {u' : User}
    (hinv : dbSDInv db = true) (hcu : softDelOK cu.is_deleted cu.deleted_at = true)
    (h : (update_profile un fn em sh ph cu db cache).2 = .ok (db', u')) :
    dbSDInv db' = true := by
  obtain ⟨_, f2, f3, hdb⟩ := update_profile_ok h
  obtain ⟨h1, h2, h3⟩ := dbSDInv_split hinv
  subst hdb
  refine dbSDInv_mk ?_ h2 h3
  exact all_map_update _ _ _ _ h1 (by simpa [softDelOK, f2, f3] using hcu)

theorem sdInv_admin_update_user {uid : Nat} {un fn em sh : Option String}
    {ph : Option Photo} {db db' : DB} {cu : User} {cache c' : Cache} {u' : User}
    (hinv : dbSDInv db = true)
    (h : admin_update_user uid un fn em sh ph db cu cache = (c', .ok (db', u'))) :
    dbSDInv db' = true := by
  obtain ⟨_, target, hf, _, f2, f3, hdb⟩ := admin_update_user_ok h
  obtain ⟨h1, h2, h3⟩ := dbSDInv_split hinv
  have htar := List.all_eq_true.mp h1 target (find?_mem hf)
  subst hdb
  refine dbSDInv_mk ?_ h2 h3
  exact all_map_update _ _ _ _ h1 (by simpa [softDelOK, f2, f3] using htar)

theorem sdInv_update_user_password {uid : Nat} {pw : String} {db db' : DB}
    {cu : User} {cache c' : Cache} {r : String}
    (hinv : dbSDInv db = true)
    (h : update_user_password uid pw db cu cache = (c', .ok (db', r))) :
    dbSDInv db' = true := by
  obtain ⟨_, u, hf, hdb⟩ := update_user_password_ok h
  obtain ⟨h1, h2, h3⟩ := dbSDInv_split hinv
  have hu := List.all_eq_true.mp h1 u (find?_mem hf)
  subst hdb
  refine dbSDInv_mk ?_ h2 h3
  exact all_map_update _ _ _ _ h1 (by simpa [softDelOK] using hu)

theorem sdInv_delete_user {uid now : Nat} {db db' : DB} {cu : User}
    {cache c' : Cache} {r : String}
    (hinv : dbSDInv db = true)
    (h : delete_user uid now db cu cache = (c', .ok (db', r))) :
    dbSDInv db' = true := by
  obtain ⟨_, u, hf, hdb⟩ := delete_user_ok h
  obtain ⟨h1, h2, h3⟩ := dbSDInv_split hinv
  subst hdb
  refine dbSDInv_mk ?_ h2 h3
  exact all_map_update _ _ _ _ h1 (by simp [softDelOK])

theorem sdInv_register {un fn em pw sh : String} {db db' : DB} {u : User}
    (hinv : dbSDInv db = true) (h : register un fn em pw sh db = .ok (db', u)) :
    dbSDInv db' = true := by
  obtain ⟨hdel, hat, hdb⟩ := register_ok h
  obtain ⟨h1, h2, h3⟩ := dbSDInv_split hinv
  subst hdb
  refine dbSDInv_mk ?_ h2 h3
  rw [List.all_append, h1]
  simp [softDelOK, hdel, hat]

/-! ### Step-identity and field-frame helper lemmas -/

theorem stepTitle_eq {acc : UpdAcc} {x : Option String}
    (h : ∀ s, x = some s → s = acc.task.title) : stepTitle acc x = acc := by
  cases x with
  | none => rfl
  | some t =>
    have := h t rfl
    simp only [stepTitle]
    rw [if_neg (by simp [this])]

theorem stepDescription_eq {acc : UpdAcc} {x : Option String}
    (h : ∀ s, x = some s → acc.task.description = some s) : stepDescription acc x = acc := by
  cases x with
  | none => rfl
  | some t =>
    have := h t rfl
    simp only [stepDescription]
    rw [if_neg (by simp [this])]

theorem stepAssignee_eq {db : DB} {acc : UpdAcc} {x : Option Nat}
    (h : ∀ n, x = some n → n = acc.task.assignee_id) : stepAssignee db acc x = .ok acc := by
  cases x with
  | none => rfl
  | some a =>
    have := h a rfl
    simp only [stepAssignee]
    rw [if_neg (by simp [this])]

theorem stepDueDate_eq {acc : UpdAcc} {x : Option Nat}
    (h : ∀ n, x = some n → acc.task.due_date = some n) : stepDueDate acc x = acc := by
  cases x with
  | none => rfl
  | some d =>
    have := h d rfl
    simp only [stepDueDate]
    rw [if_neg (by simp [this])]

theorem stepTitle_assignee (acc : UpdAcc) (x : Option String) :
    (stepTitle acc x).task.assignee_id = acc.task.assignee_id := by
  cases x with
  | none => rfl
  | some t =>
    simp only [stepTitle]
    split <;> simp

theorem stepDescription_assignee (acc : UpdAcc) (x : Option String) :
    (stepDescription acc x).task.assignee_id = acc.task.assignee_id := by
  cases x with
  | none => rfl
  | some t =>
    simp only [stepDescription]
    split <;> simp

/-! ### History-shape lemmas for `update_task` -/

/-- A successful `update_task` either committed a complete no-op (no row
changed, no history written) or it strictly grew the history table. -/
theorem update_task_hist {tid : Nat} {ti de : Option String} {as du : Option Nat}
    {im : List String} {cu : User} {db db' : DB} {t : Task}
    (hnd : (db.tasks.map Task.id).Nodup)
    (h : update_task tid ti de as du im cu db = .ok (db', t)) :
    (db'.tasks = db.tasks ∧ db'.taskHistory = db.taskHistory) ∨
    db'.taskHistory.length ≥ db.taskHistory.length + 1 := by
  obtain ⟨task, acc₃, hf, ha, hs, hc⟩ := update_task_ok h
  obtain ⟨hdb, ht⟩ := Prod.mk.injEq .. ▸ hc
  by_cases him : im = []
  · by_cases hch : (stepDueDate acc₃ du).changes = []
    · left
      obtain ⟨e4, e4'⟩ := stepDueDate_empty hch
      obtain ⟨e3, e3'⟩ := stepAssignee_empty hs e4'
      obtain ⟨e2, e2'⟩ := stepDescription_empty e3'
      obtain ⟨e1, _⟩ := stepTitle_empty e2'
      have hacc4 : (stepDueDate acc₃ du).task = task := by
        rw [e4, e3, e2, e1]
      constructor
      · rw [hdb]
        simp only [update_task_commit]
        rw [hacc4]
        apply map_id_of_mem
        intro x hx
        by_cases hid : (x.id == tid) = true
        · have hxt : x = task := by
            apply nodup_key_inj (f := Task.id) hnd hx (find?_mem hf)
            have := find?_prop hf
            simp only [Bool.and_eq_true, beq_iff_eq] at this hid
            rw [hid, this.1]
          simp [hid, hxt]
        · simp [hid]
      · rw [hdb]
        simp [update_task_commit, him, updChanges, updRecs, hch]
    · right
      rw [hdb]
      simp only [update_task_commit, updChanges, him]
      rw [if_neg (by simp [hch])]
      rw [updRecs, if_pos hch]
      simp [him]
  · right
    rw [hdb]
    have : im.length ≥ 1 := by
      cases im with
      | nil => exact absurd rfl him
      | cons a l => simp
    simp only [update_task_commit]
    simp [updRecs]
    split
    all_goals simp
    all_goals omega

/-- The history records a successful `update_task` appends, and the fact that
no stored status changes. -/
theorem update_task_no_status {tid : Nat} {ti de : Option String} {as du : Option Nat}
    {im : List String} {cu : User} {db db' : DB} {t : Task}
    (hnd : (db.tasks.map Task.id).Nodup)
    (h : update_task tid ti de as du im cu db = .ok (db', t)) :
    db'.tasks.map Task.status = db.tasks.map Task.status ∧
    ∃ new, db'.taskHistory = db.taskHistory ++ new ∧
      ∀ r ∈ new, r.event = "IMAGE_ADDED" ∨ r.event = "TASK_UPDATED" := by
  obtain ⟨task, acc₃, hf, ha, hs, hc⟩ := update_task_ok h
  obtain ⟨hdb, ht⟩ := Prod.mk.injEq .. ▸ hc
  obtain ⟨f1, f2, _, _⟩ := upd_acc_frame du hs
  constructor
  · rw [hdb]
    simp only [update_task_commit, List.map_map]
    apply map_congr_mem
    intro x hx
    by_cases hid : (x.id == tid) = true
    · have hxt : x = task := by
        apply nodup_key_inj (f := Task.id) hnd hx (find?_mem hf)
        have := find?_prop hf
        simp only [Bool.and_eq_true, beq_iff_eq] at this hid
        rw [hid, this.1]
      simp only [Function.comp]
      rw [if_pos hid, f2, hxt]
    · simp only [Function.comp]
      rw [if_neg hid]
  · refine ⟨im.map (imageRecord task.id cu.user_id) ++
      updRecs task.id cu.user_id (updChanges im (stepDueDate acc₃ du).changes),
      by rw [hdb]; simp [update_task_commit], ?_⟩
    intro r hr
    rcases List.mem_append.mp hr with hr | hr
    · rcases List.mem_map.mp hr with ⟨p, _, rfl⟩
      left; rfl
    · rw [updRecs] at hr
      split at hr
      · rcases List.mem_singleton.mp hr with rfl
        right; rfl
      · cases hr

/-! ### Cache-shape lemmas -/

theorem cacheGet_delete_self (c : Cache) (k : String) :
    cacheGet (cacheDelete c k) k = none := by
  rw [cacheGet, cacheDelete]
  have hn : List.find? (fun e => e.key == k) (List.filter (fun e => e.key != k) c) = none := by
    rw [List.find?_eq_none]
    intro e he
    have := (List.mem_filter.mp he).2
    simp only [bne_iff_ne, ne_eq] at this
    simp [this]
  rw [hn]
  rfl

theorem cacheGet_invalidate_profile (c : Cache) (uid : Nat) :
    cacheGet (invalidate_user_cache c uid) ("user_profile:" ++ toString uid) = none := by
  rw [invalidate_user_cache, cacheGet, cacheDeleteByPrefix]
  have hn : List.find? (fun e => e.key == "user_profile:" ++ toString uid)
      (List.filter (fun e => !"admin_users:".isPrefixOf e.key)
        (cacheDelete c ("user_profile:" ++ toString uid))) = none := by
    rw [List.find?_eq_none]
    intro e he
    have := List.mem_filter.mp he
    have h2 := (List.mem_filter.mp this.1).2
    simp only [bne_iff_ne, ne_eq] at h2
    simp [h2]
  rw [hn]
  rfl

theorem invalidate_no_admin_keys (c : Cache) (uid : Nat) :
    ∀ e ∈ invalidate_user_cache c uid, ("admin_users:".isPrefixOf e.key) = false := by
  intro e he
  rw [invalidate_user_cache, cacheDeleteByPrefix] at he
  have := (List.mem_filter.mp he).2
  simpa using this

theorem cacheDelete_preserves_others (c : Cache) (k : String) :
    ∀ e ∈ c, e.key ≠ k → e ∈ cacheDelete c k := by
  intro e he h
  rw [cacheDelete, List.mem_filter]
  exact ⟨he, by simp [h]⟩

/-- Redis `invalidate_user_cache` removes nothing beyond the direct profile
key and the `admin_users:*` family: any other entry — in particular the whole
`user_search:*` family — survives with its value intact. -/
theorem invalidate_preserves_others (c : Cache) (uid : Nat) :
    ∀ e ∈ c, e.key ≠ "user_profile:" ++ toString uid →
      "admin_users:".isPrefixOf e.key = false → e ∈ invalidate_user_cache c uid := by
  intro e he h1 h2
  rw [invalidate_user_cache, cacheDeleteByPrefix, List.mem_filter]
  exact ⟨cacheDelete_preserves_others c _ e he h1, by simp [h2]⟩

/-- Returns `true` iff the endpoint call committed. -/
def isOk {α : Type} : Except Err α → Bool
  | .ok _ => true
  | .error _ => false

/-- Committed post-state for the endpoints that also return a cache. -/
def newDBc {α : Type} (db : DB) (p : Cache × Except Err (DB × α)) : DB :=
  match p.2 with
  | .ok (db', _) => db'
  | .error _ => db

/-! ## Claim theorems -/

/-- C4, counterexample to the claim as stated: `update_task` on task 1 with
every proposed field absent (an empty field diff) but one uploaded image
commits and creates **two** history records, not zero. -/
theorem empty_field_diff_with_images_writes_history :
    isOk (update_task 1 none none none none ["img.png"] alice db0) = true ∧
    db0.taskHistory.length = 0 ∧
    (newDB db0 (update_task 1 none none none none ["img.png"] alice db0)).taskHistory.length
      = 2 := by
  decide

/-- C4 (amended): an update of a Task or Article in which every proposed field
value equals the stored value creates zero history records, **provided** (for
Tasks) no images are uploaded; a successful Article update never creates a
history record at all. -/
theorem empty_diff_no_images_writes_no_history :
    (∀ (tid : Nat) (ti de : Option String) (as du : Option Nat) (cu : User)
       (db db' : DB) (t task : Task),
      db.tasks.find? (fun x => x.id == tid && x.is_deleted == false) = some task →
      (∀ s, ti = some s → s = task.title) →
      (∀ s, de = some s → task.description = some s) →
      (∀ n, as = some n → n = task.assignee_id) →
      (∀ n, du = some n → task.due_date = some n) →
      update_task tid ti de as du [] cu db = .ok (db', t) →
      db'.taskHistory = db.taskHistory) ∧
    (∀ (aid : Nat) (ti co : Option String) (im : List String) (cu : User)
       (db db' : DB) (a : Article),
      update_article aid ti co im cu db = .ok (db', a) →
      db'.articleHistory = db.articleHistory) := by
  constructor
  · intro tid ti de as du cu db db' t task hf hti hde has hdu h
    obtain ⟨task', acc₃, hf', ha, hs, hc⟩ := update_task_ok h
    rw [hf] at hf'
    injection hf' with htask'
    subst htask'
    have e1 : stepTitle { task := task, changes := [] } ti = { task := task, changes := [] } :=
      stepTitle_eq (fun s h' => hti s h')
    have e2 : stepDescription { task := task, changes := [] } de
        = { task := task, changes := [] } :=
      stepDescription_eq (fun s h' => hde s h')
    rw [e1, e2] at hs
    rw [stepAssignee_eq (fun n h' => has n h')] at hs
    injection hs with h3
    obtain ⟨hdb, _⟩ := Prod.mk.injEq .. ▸ hc
    rw [hdb]
    rw [← h3, stepDueDate_eq (fun n h' => hdu n h')]
    simp [update_task_commit, updChanges, updRecs]
  · intro aid ti co im cu db db' a h
    obtain ⟨article, _, _, _, hdb⟩ := update_article_ok h
    rw [hdb]

/-- C4 witness: a field-equal update of task 1 and of article 1 (no images)
leaves both history tables untouched. -/
theorem empty_diff_no_images_writes_no_history_witness :
    (newDB db0 (update_task 1 (some "Fix pump") none (some 1) none [] alice db0)).taskHistory
      = db0.taskHistory ∧
    (newDB db0 (update_article 1 (some "Old") none [] alice db0)).articleHistory
      = db0.articleHistory := by
  constructor
  · exact empty_diff_no_images_writes_no_history.1 1 (some "Fix pump") none (some 1) none
      alice db0 _ _ task1 rfl (fun s h => by cases h; rfl) (fun s h => by cases h)
      (fun n h => by cases h; rfl) (fun n h => by cases h) rfl
  · exact empty_diff_no_images_writes_no_history.2 1 (some "Old") none [] alice db0 _ _ rfl

/-- C5: the code-level failure — an `update_article` call with a genuinely new
title (a non-empty diff) does not create one history record with the old
values; it fails with HTTP 500 (the `ArticleHistory` model has no `changes`
column, so the constructor call raises `TypeError`) and the whole update rolls
back. -/
theorem article_update_nonempty_diff_raises :
    article1.title = "Old" ∧
    update_article 1 (some "New Title") none [] alice db0
      = .error (.http 500 "Ошибка при обновлении статьи") ∧
    newDB db0 (update_article 1 (some "New Title") none [] alice db0) = db0 := by
  decide

/-- C7: the restore window behaviour at time 86500 (one day after the
deletions at time 100) and at time `100 + GRACE_SECONDS + 1` (just past the
7-day window): the late task restore fails and the task stays deleted; the
in-window task restore succeeds, resets both soft-delete columns and appends
exactly one `TASK_RESTORED` record; the in-window *article* restore — which
the claim says must succeed — fails with HTTP 500 and the article stays
deleted. -/
theorem restore_window_behavior :
    (isOk (restore_task 2 (100 + GRACE_SECONDS + 1) alice db0) = false ∧
     (newDB db0 (restore_task 2 (100 + GRACE_SECONDS + 1) alice db0)) = db0) ∧
    (isOk (restore_task 2 86500 alice db0) = true ∧
     ((newDB db0 (restore_task 2 86500 alice db0)).tasks.get? 1).map Task.is_deleted
        = some false ∧
     ((newDB db0 (restore_task 2 86500 alice db0)).tasks.get? 1).map Task.deleted_at
        = some none ∧
     (newDB db0 (restore_task 2 86500 alice db0)).taskHistory.map TaskHistory.event
        = ["TASK_RESTORED"]) ∧
    (article2.is_deleted = true ∧ article2.deleted_at = some 100 ∧
     restore_article 2 86500 alice db0
        = .error (.http 500 "Ошибка при восстановлении статьи") ∧
     newDB db0 (restore_article 2 86500 alice db0) = db0) := by
  decide

/-- C10: an `update_task` that proposes no field values but uploads images
commits one `IMAGE_ADDED` record per image plus exactly one `TASK_UPDATED`
record whose `changes` dict holds only the images marker entry. -/
theorem image_only_update_writes_history :
    ∀ (tid : Nat) (im : List String) (cu : User) (db db' : DB) (t task : Task),
      db.tasks.find? (fun x => x.id == tid && x.is_deleted == false) = some task →
      im ≠ [] →
      update_task tid none none none none im cu db = .ok (db', t) →
      db'.taskHistory = db.taskHistory ++ im.map (imageRecord task.id cu.user_id) ++
        [{ task_id := task.id, user_id := cu.user_id, event := "TASK_UPDATED",
           changes := [("images", .v (.str "добавлены новые изображения"))] }] ∧
      t = task := by
  intro tid im cu db db' t task hf him h
  obtain ⟨task', acc₃, hf', ha, hs, hc⟩ := update_task_ok h
  rw [hf] at hf'
  injection hf' with htask'
  subst htask'
  have hs' : stepAssignee db { task := task, changes := [] } none
      = .ok { task := task, changes := [] } := rfl
  rw [show stepTitle { task := task, changes := [] } none = { task := task, changes := [] }
        from rfl,
      show stepDescription { task := task, changes := [] } none
        = { task := task, changes := [] } from rfl, hs'] at hs
  injection hs with h3
  obtain ⟨hdb, ht⟩ := Prod.mk.injEq .. ▸ hc
  rw [← h3] at hdb ht
  constructor
  · rw [hdb]
    simp [update_task_commit, stepDueDate, updChanges, updRecs, him]
  · rw [ht]
    rfl

/-- C10 witness: updating task 1 with two images and no field values appends
exactly the two `IMAGE_ADDED` records and the marker `TASK_UPDATED` record. -/
theorem image_only_update_writes_history_witness :
    (newDB db0 (update_task 1 none none none none ["a.png", "b.jpg"] alice db0)).taskHistory
      = db0.taskHistory ++ [imageRecord 1 1 "a.png", imageRecord 1 1 "b.jpg"] ++
        [{ task_id := 1, user_id := 1, event := "TASK_UPDATED",
           changes := [("images", .v (.str "добавлены новые изображения"))] }] := by
  exact (image_only_update_writes_history 1 ["a.png", "b.jpg"] alice db0 _ _ task1 rfl
    (by decide) rfl).1

/-- C1, counterexample to the claim as stated: the admin soft-delete of user 1
is a state-changing mutation (it flips `is_deleted`) that commits with **zero**
history records appended — no user-history table even exists in the data
model. -/
theorem user_delete_commits_without_history :
    isOk (delete_user 1 1000 db0 adminUser []).2 = true ∧
    ((newDBc db0 (delete_user 1 1000 db0 adminUser [])).users.get? 0).map User.is_deleted
      = some true ∧
    (newDBc db0 (delete_user 1 1000 db0 adminUser [])).taskHistory = db0.taskHistory ∧
    (newDBc db0 (delete_user 1 1000 db0 adminUser [])).articleHistory = db0.articleHistory := by
  decide

/-- C1 (amended): every *Task* mutation commits atomically with at least one
history record — create, delete, reassign and restore always append one (or
more, with images), and update appends at least one unless it was a complete
no-op commit — while the *User* mutations (password change, delete, profile
and admin updates) commit without appending any history record, and Article
creation commits its `CREATE` history record in a separate, later transaction:
the first transaction makes the article row durable with the history table
still untouched, and only the third transaction appends the record. -/
theorem task_mutations_append_history_users_do_not :
    (∀ (ti : String) (de : Option String) (ai : Nat) (du : Option Nat)
       (im : List String) (cu : User) (db db' : DB) (t : Task),
      create_task ti de ai du im cu db = .ok (db', t) →
      db'.taskHistory.length ≥ db.taskHistory.length + 1) ∧
    (∀ (tid now : Nat) (cu : User) (db db' : DB) (r : String),
      delete_task tid now cu db = .ok (db', r) →
      db'.taskHistory.length = db.taskHistory.length + 1) ∧
    (∀ (tid naid : Nat) (com : Option String) (cu : User) (db db' : DB) (t : Task),
      reassign_task tid naid com cu db = .ok (db', t) →
      db'.taskHistory.length = db.taskHistory.length + 1) ∧
    (∀ (tid now : Nat) (cu : User) (db db' : DB) (t : Task),
      restore_task tid now cu db = .ok (db', t) →
      db'.taskHistory.length = db.taskHistory.length + 1) ∧
    (∀ (tid : Nat) (ti de : Option String) (as du : Option Nat) (im : List String)
       (cu : User) (db db' : DB) (t : Task),
      (db.tasks.map Task.id).Nodup →
      update_task tid ti de as du im cu db = .ok (db', t) →
      (db'.tasks = db.tasks ∧ db'.taskHistory = db.taskHistory) ∨
      db'.taskHistory.length ≥ db.taskHistory.length + 1) ∧
    (∀ (uid now : Nat) (db : DB) (cu : User) (cache c' : Cache) (db' : DB) (r : String),
      delete_user uid now db cu cache = (c', .ok (db', r)) →
      db'.taskHistory = db.taskHistory ∧ db'.articleHistory = db.articleHistory) ∧
    (∀ (uid : Nat) (pw : String) (db : DB) (cu : User) (cache c' : Cache) (db' : DB) (r : String),
      update_user_password uid pw db cu cache = (c', .ok (db', r)) →
      db'.taskHistory = db.taskHistory ∧ db'.articleHistory = db.articleHistory) ∧
    (∀ (un fn em : Option String) (sh : String) (ph : Option Photo) (cu : User)
       (db : DB) (cache : Cache) (db' : DB) (u : User),
      (update_profile un fn em sh ph cu db cache).2 = .ok (db', u) →
      db'.taskHistory = db.taskHistory ∧ db'.articleHistory = db.articleHistory) ∧
    (∀ (uid : Nat) (un fn em sh : Option String) (ph : Option Photo) (db : DB)
       (cu : User) (cache c' : Cache) (db' : DB) (u : User),
      admin_update_user uid un fn em sh ph db cu cache = (c', .ok (db', u)) →
      db'.taskHistory = db.taskHistory ∧ db'.articleHistory = db.articleHistory) ∧
    (∀ (ti co : String) (im : List String) (cu : User) (db : DB),
      (create_article_txn1 ti co cu db).1.articleHistory = db.articleHistory ∧
      (create_article_txn1 ti co cu db).1.articles
        = db.articles ++ [(create_article_txn1 ti co cu db).2] ∧
      (create_article ti co im cu db).2 = .ok (create_article_txn1 ti co cu db).2 ∧
      (create_article ti co im cu db).1.articleHistory.length
        = db.articleHistory.length + 1) := by
  refine ⟨?_, ?_, ?_, ?_, ?_, ?_, ?_, ?_, ?_, ?_⟩
  · intro ti de ai du im cu db db' t h
    obtain ⟨u, _, _, hdb⟩ := create_task_ok h
    subst hdb
    simp
  · intro tid now cu db db' r h
    obtain ⟨task, _, _, hdb⟩ := delete_task_ok h
    subst hdb
    simp
  · intro tid naid com cu db db' t h
    obtain ⟨task, na, _, _, _, _, _, hdb⟩ := reassign_task_ok h
    subst hdb
    simp
  · intro tid now cu db db' t h
    obtain ⟨task, _, _, _, hdb⟩ := restore_task_ok h
    subst hdb
    simp
  · intro tid ti de as du im cu db db' t hnd h
    exact update_task_hist hnd h
  · intro uid now db cu cache c' db' r h
    obtain ⟨_, u, _, hdb⟩ := delete_user_ok h
    subst hdb
    exact ⟨rfl, rfl⟩
  · intro uid pw db cu cache c' db' r h
    obtain ⟨_, u, _, hdb⟩ := update_user_password_ok h
    subst hdb
    exact ⟨rfl, rfl⟩
  · intro un fn em sh ph cu db cache db' u h
    obtain ⟨_, _, _, hdb⟩ := update_profile_ok h
    subst hdb
    exact ⟨rfl, rfl⟩
  · intro uid un fn em sh ph db cu cache c' db' u h
    obtain ⟨_, target, _, _, _, _, hdb⟩ := admin_update_user_ok h
    subst hdb
    exact ⟨rfl, rfl⟩
  · intro ti co im cu db
    refine ⟨rfl, rfl, ?_, ?_⟩
    · rw [create_article_eq]
      rfl
    · rw [create_article_eq]
      simp

/-- C1 witness: deleting task 1 appends exactly one history record, and the
admin delete of user 1 commits with the history tables untouched. -/
theorem task_mutations_append_history_witness :
    (newDB db0 (delete_task 1 500 alice db0)).taskHistory.length
      = db0.taskHistory.length + 1 ∧
    (newDBc db0 (delete_user 1 1000 db0 adminUser [])).taskHistory = db0.taskHistory := by
  constructor
  · exact task_mutations_append_history_users_do_not.2.1 1 500 alice db0 _ _ rfl
  · exact (task_mutations_append_history_users_do_not.2.2.2.2.2.1
      1 1000 db0 adminUser [] _ _ _ rfl).1

/-- A cache that already holds a search result mentioning the pre-mutation
`alice` row. -/
def staleCache : Cache :=
  [{ key := searchCacheKey (some "ali") none none none 10,
     value := .usersJson [alice], ttl := 300 }]

/-- C2, counterexample to the claim as stated: `update_profile` — called with
a valid new username and the required `shift` field carrying its current value
"morning", so the request passes pydantic validation — successfully renames
user 1 to "alice2", yet immediately afterwards the `user_search:*` key family
still serves the pre-mutation row (`username = "alice"`) straight from the
cache, without touching the store. -/
theorem stale_search_cache_after_profile_update :
    isOk (update_profile (some "alice2") none none "morning" none alice db0 staleCache).2 = true ∧
    ((newDBc db0 (update_profile (some "alice2") none none "morning" none alice db0 staleCache)).users.get? 0).map
        User.username = some "alice2" ∧
    (search_users (some "ali") none none none 10
        (newDBc db0 (update_profile (some "alice2") none none "morning" none alice db0 staleCache))
        (update_profile (some "alice2") none none "morning" none alice db0 staleCache).1).result
      = .ok (.usersJson [alice]) ∧
    (search_users (some "ali") none none none 10
        (newDBc db0 (update_profile (some "alice2") none none "morning" none alice db0 staleCache))
        (update_profile (some "alice2") none none "morning" none alice db0 staleCache).1).dbQueried
      = false ∧
    alice.username = "alice" := by
  decide

/-- C2 (amended): each admin user mutation invalidates exactly the direct
`user_profile:{id}` key and the `admin_users:*` family (after its commit) and
removes nothing else — any entry under a different key, in particular the
whole `user_search:*` family, survives the mutation with its value intact and
is left to expire by TTL; the self-service profile update deletes only its own
`user_profile` key (and does so before the transaction, not after) and leaves
every other entry in place. -/
theorem user_mutation_cache_invalidation_amended :
    (∀ (uid : Nat) (pw : String) (db : DB) (cu : User) (cache c' : Cache) (db' : DB) (r : String),
      update_user_password uid pw db cu cache = (c', .ok (db', r)) →
      cacheGet c' ("user_profile:" ++ toString uid) = none ∧
      (∀ e ∈ c', "admin_users:".isPrefixOf e.key = false) ∧
      (∀ e ∈ cache, e.key ≠ "user_profile:" ++ toString uid →
        "admin_users:".isPrefixOf e.key = false → e ∈ c')) ∧
    (∀ (uid now : Nat) (db : DB) (cu : User) (cache c' : Cache) (db' : DB) (r : String),
      delete_user uid now db cu cache = (c', .ok (db', r)) →
      cacheGet c' ("user_profile:" ++ toString uid) = none ∧
      (∀ e ∈ c', "admin_users:".isPrefixOf e.key = false) ∧
      (∀ e ∈ cache, e.key ≠ "user_profile:" ++ toString uid →
        "admin_users:".isPrefixOf e.key = false → e ∈ c')) ∧
    (∀ (uid : Nat) (un fn em sh : Option String) (ph : Option Photo) (db : DB)
       (cu : User) (cache c' : Cache) (db' : DB) (u : User),
      admin_update_user uid un fn em sh ph db cu cache = (c', .ok (db', u)) →
      cacheGet c' ("user_profile:" ++ toString uid) = none ∧
      (∀ e ∈ c', "admin_users:".isPrefixOf e.key = false) ∧
      (∀ e ∈ cache, e.key ≠ "user_profile:" ++ toString uid →
        "admin_users:".isPrefixOf e.key = false → e ∈ c')) ∧
    (∀ (un fn em : Option String) (sh : String) (ph : Option Photo) (cu : User)
       (db : DB) (cache : Cache) (db' : DB) (u : User),
      (update_profile un fn em sh ph cu db cache).2 = .ok (db', u) →
      cacheGet (update_profile un fn em sh ph cu db cache).1
        ("user_profile:" ++ toString cu.user_id) = none ∧
      ∀ e ∈ cache, e.key ≠ "user_profile:" ++ toString cu.user_id →
        e ∈ (update_profile un fn em sh ph cu db cache).1) := by
  refine ⟨?_, ?_, ?_, ?_⟩
  · intro uid pw db cu cache c' db' r h
    obtain ⟨hc, _⟩ := update_user_password_ok h
    subst hc
    exact ⟨cacheGet_invalidate_profile cache uid, invalidate_no_admin_keys cache uid,
      invalidate_preserves_others cache uid⟩
  · intro uid now db cu cache c' db' r h
    obtain ⟨hc, _⟩ := delete_user_ok h
    subst hc
    exact ⟨cacheGet_invalidate_profile cache uid, invalidate_no_admin_keys cache uid,
      invalidate_preserves_others cache uid⟩
  · intro uid un fn em sh ph db cu cache c' db' u h
    obtain ⟨hc, _⟩ := admin_update_user_ok h
    subst hc
    exact ⟨cacheGet_invalidate_profile cache uid, invalidate_no_admin_keys cache uid,
      invalidate_preserves_others cache uid⟩
  · intro un fn em sh ph cu db cache db' u h
    exact ⟨cacheGet_delete_self cache ("user_profile:" ++ toString cu.user_id),
      cacheDelete_preserves_others cache ("user_profile:" ++ toString cu.user_id)⟩

/-- C2 witness: after the admin delete of user 1 (run against `staleCache`
plus that user's profile entry), the direct profile key misses. -/
theorem user_mutation_cache_invalidation_witness :
    cacheGet (delete_user 1 1000 db0 adminUser
        ({ key := "user_profile:1", value := .userJson alice, ttl := 3600 } :: staleCache)).1
      ("user_profile:" ++ toString 1) = none := by
  exact (user_mutation_cache_invalidation_amended.2.1 1 1000 db0 adminUser
    ({ key := "user_profile:1", value := .userJson alice, ttl := 3600 } :: staleCache)
    _ _ _ rfl).1

/-- C6, counterexample to the claim as stated: `update_task` moves task 1 from
`alice` (shift "morning") to `bob` (shift "evening") — the cross-shift
assignee change succeeds and the stored assignee changes, because the update
path never compares shifts. -/
theorem cross_shift_update_succeeds :
    alice.shift = "morning" ∧ bob.shift = "evening" ∧
    task1.assignee_id = alice.user_id ∧
    isOk (update_task 1 none none (some 2) none [] alice db0) = true ∧
    ((newDB db0 (update_task 1 none none (some 2) none [] alice db0)).tasks.get? 0).map
        Task.assignee_id = some 2 := by
  decide

/-- C6 (amended): a missing or soft-deleted new assignee makes both the
reassign endpoint and the update path fail with the state unchanged (the 404
is surfaced as 500 by the blanket exception wrapper); the same-shift rule is
enforced *only* by the reassign endpoint — a successful update-path assignee
change guarantees just existence and non-deletion (or that it was a no-op). -/
theorem assignee_change_checks_amended :
    (∀ (tid naid : Nat) (com : Option String) (cu : User) (db : DB) (e : Err),
      verify_assignee db naid = .error e →
      (∀ x, reassign_task tid naid com cu db ≠ .ok x) ∧
      newDB db (reassign_task tid naid com cu db) = db) ∧
    (∀ (tid naid : Nat) (com : Option String) (cu : User) (db : DB) (na : User) (task : Task),
      db.tasks.find? (fun x => x.id == tid && x.is_deleted == false) = some task →
      verify_assignee db naid = .ok na →
      some na.shift ≠ (db.users.find? (fun u => u.user_id == task.assignee_id)).map User.shift →
      (∀ x, reassign_task tid naid com cu db ≠ .ok x) ∧
      newDB db (reassign_task tid naid com cu db) = db) ∧
    (∀ (tid : Nat) (ti de : Option String) (a : Nat) (du : Option Nat)
       (im : List String) (cu : User) (db : DB) (e : Err) (task : Task),
      db.tasks.find? (fun x => x.id == tid && x.is_deleted == false) = some task →
      a ≠ 0 → a ≠ task.assignee_id →
      verify_assignee db a = .error e →
      (∀ x, update_task tid ti de (some a) du im cu db ≠ .ok x) ∧
      newDB db (update_task tid ti de (some a) du im cu db) = db) ∧
    (∀ (tid : Nat) (ti de : Option String) (a : Nat) (du : Option Nat)
       (im : List String) (cu : User) (db db' : DB) (t : Task),
      update_task tid ti de (some a) du im cu db = .ok (db', t) →
      (∃ u ∈ db.users, u.user_id = a ∧ u.is_deleted = false) ∨ a = 0 ∨
      (∃ task, db.tasks.find? (fun x => x.id == tid && x.is_deleted == false) = some task ∧
        task.assignee_id = a)) := by
  refine ⟨?_, ?_, ?_, ?_⟩
  · intro tid naid com cu db e hv
    have hne : ∀ x, reassign_task tid naid com cu db ≠ .ok x := by
      intro x hx
      cases x with
      | mk db' t =>
        obtain ⟨task, na, _, _, hv', _, _, _⟩ := reassign_task_ok hx
        rw [hv] at hv'
        cases hv'
    refine ⟨hne, ?_⟩
    cases hr : reassign_task tid naid com cu db with
    | ok p => exact absurd hr (hne p)
    | error e' => rw [newDB]
  · intro tid naid com cu db na task hf hv hsh
    have hne : ∀ x, reassign_task tid naid com cu db ≠ .ok x := by
      intro x hx
      cases x with
      | mk db' t =>
        obtain ⟨task', na', hf', _, hv', hsh', _, _⟩ := reassign_task_ok hx
        rw [hf] at hf'
        injection hf' with htask
        rw [hv] at hv'
        injection hv' with hna
        rw [← htask, ← hna] at hsh'
        exact hsh hsh'
    refine ⟨hne, ?_⟩
    cases hr : reassign_task tid naid com cu db with
    | ok p => exact absurd hr (hne p)
    | error e' => rw [newDB]
  · intro tid ti de a du im cu db e task hf ha0 hane hv
    have hne : ∀ x, update_task tid ti de (some a) du im cu db ≠ .ok x := by
      intro x hx
      cases x with
      | mk db' t =>
        obtain ⟨task', acc₃, hf', _, hs, _⟩ := update_task_ok hx
        rw [hf] at hf'
        injection hf' with htask
        subst htask
        have hass : (stepDescription (stepTitle { task := task, changes := [] } ti) de).task.assignee_id
            = task.assignee_id := by
          rw [stepDescription_assignee, stepTitle_assignee]
        simp only [stepAssignee] at hs
        rw [if_pos ⟨ha0, by rw [hass]; exact hane⟩, hv] at hs
        cases hs
    refine ⟨hne, ?_⟩
    cases hr : update_task tid ti de (some a) du im cu db with
    | ok p => exact absurd hr (hne p)
    | error e' => rw [newDB]
  · intro tid ti de a du im cu db db' t h
    obtain ⟨task, acc₃, hf, _, hs, _⟩ := update_task_ok h
    have hass : (stepDescription (stepTitle { task := task, changes := [] } ti) de).task.assignee_id
        = task.assignee_id := by
      rw [stepDescription_assignee, stepTitle_assignee]
    simp only [stepAssignee] at hs
    by_cases hc : (a ≠ 0 ∧ a ≠ (stepDescription (stepTitle { task := task, changes := [] } ti) de).task.assignee_id)
    · rw [if_pos hc] at hs
      cases hv : verify_assignee db a with
      | error e => rw [hv] at hs; cases hs
      | ok u =>
        left
        rw [verify_assignee] at hv
        cases hfu : db.users.find? (fun v => v.user_id == a && v.is_deleted == false) with
        | none => rw [hfu] at hv; cases hv
        | some u' =>
          rw [hfu] at hv
          injection hv with hu
          have hm := find?_mem hfu
          have hp := find?_prop hfu
          simp only [Bool.and_eq_true, beq_iff_eq] at hp
          exact ⟨u', hm, hp.1, hp.2⟩
    · rw [not_and_or] at hc
      rcases hc with hc | hc
      · right; left
        simpa using hc
      · right; right
        rw [not_not] at hc
        rw [hass] at hc
        exact ⟨task, hf, hc.symm⟩

/-- C6 witness: reassigning task 1 to the missing user 9 and to the
evening-shift user 2 both leave the database unchanged. -/
theorem assignee_change_checks_witness :
    newDB db0 (reassign_task 1 9 none alice db0) = db0 ∧
    newDB db0 (reassign_task 1 2 none alice db0) = db0 := by
  constructor
  · exact (assignee_change_checks_amended.1 1 9 none alice db0 _ rfl).2
  · exact (assignee_change_checks_amended.2.1 1 2 none alice db0 bob task1 rfl rfl
      (by decide)).2

/-- Replacing one task row by a status-preserving update leaves the status
column of every row unchanged (primary keys assumed unique). -/
theorem status_map_update {l : List Task} {tid : Nat} {task t' : Task}
    (hnd : (l.map Task.id).Nodup) (hmem : task ∈ l) (hid : task.id = tid)
    (hstat : t'.status = task.status) :
    (l.map (fun x => if x.id == tid then t' else x)).map Task.status
      = l.map Task.status := by
  rw [List.map_map]
  apply map_congr_mem
  intro x hx
  by_cases hx' : (x.id == tid) = true
  · have hxt : x = task := by
      apply nodup_key_inj (f := Task.id) hnd hx hmem
      simp only [beq_iff_eq] at hx'
      rw [hx', hid]
    simp only [Function.comp]
    rw [if_pos hx', hstat, hxt]
  · simp only [Function.comp]
    rw [if_neg hx']

/-- C3: no operation in the repository performs a status transition — there is
no status-transition endpoint at all. Every task endpoint leaves every stored
task status exactly as it was (creation appends a task in the default `ACTIVE`
state), and none of them ever appends a history record with event
`STATUS_CHANGED`: the `ACTIVE→POSTPONED→…` table, the `InvalidState`
rejection and the `STATUS_CHANGED` diff record have no realization in the
code. -/
theorem no_status_transition_operation :
    (∀ (tid : Nat) (ti de : Option String) (as du : Option Nat) (im : List String)
       (cu : User) (db db' : DB) (t : Task),
      (db.tasks.map Task.id).Nodup →
      update_task tid ti de as du im cu db = .ok (db', t) →
      db'.tasks.map Task.status = db.tasks.map Task.status ∧
      ∃ new, db'.taskHistory = db.taskHistory ++ new ∧
        ∀ r ∈ new, r.event ≠ "STATUS_CHANGED") ∧
    (∀ (ti : String) (de : Option String) (ai : Nat) (du : Option Nat)
       (im : List String) (cu : User) (db db' : DB) (t : Task),
      create_task ti de ai du im cu db = .ok (db', t) →
      db'.tasks.map Task.status = db.tasks.map Task.status ++ [TaskStatus.ACTIVE] ∧
      ∃ new, db'.taskHistory = db.taskHistory ++ new ∧
        ∀ r ∈ new, r.event ≠ "STATUS_CHANGED") ∧
    (∀ (tid now : Nat) (cu : User) (db db' : DB) (r : String),
      (db.tasks.map Task.id).Nodup →
      delete_task tid now cu db = .ok (db', r) →
      db'.tasks.map Task.status = db.tasks.map Task.status ∧
      ∃ new, db'.taskHistory = db.taskHistory ++ new ∧
        ∀ r' ∈ new, r'.event ≠ "STATUS_CHANGED") ∧
    (∀ (tid naid : Nat) (com : Option String) (cu : User) (db db' : DB) (t : Task),
      (db.tasks.map Task.id).Nodup →
      reassign_task tid naid com cu db = .ok (db', t) →
      db'.tasks.map Task.status = db.tasks.map Task.status ∧
      ∃ new, db'.taskHistory = db.taskHistory ++ new ∧
        ∀ r ∈ new, r.event ≠ "STATUS_CHANGED") ∧
    (∀ (tid now : Nat) (cu : User) (db db' : DB) (t : Task),
      (db.tasks.map Task.id).Nodup →
      restore_task tid now cu db = .ok (db', t) →
      db'.tasks.map Task.status = db.tasks.map Task.status ∧
      ∃ new, db'.taskHistory = db.taskHistory ++ new ∧
        ∀ r ∈ new, r.event ≠ "STATUS_CHANGED") := by
  refine ⟨?_, ?_, ?_, ?_, ?_⟩
  · intro tid ti de as du im cu db db' t hnd h
    obtain ⟨hst, new, hh, hev⟩ := update_task_no_status hnd h
    refine ⟨hst, new, hh, fun r hr => ?_⟩
    rcases hev r hr with h' | h' <;> simp [h']
  · intro ti de ai du im cu db db' t h
    obtain ⟨u, hv, ht, hdb⟩ := create_task_ok h
    subst hdb
    refine ⟨by simp [ht], _, by rw [List.append_assoc], fun r hr => ?_⟩
    rcases List.mem_append.mp hr with hr | hr
    · rcases List.mem_map.mp hr with ⟨p, _, rfl⟩
      simp [imageRecord]
    · rcases List.mem_singleton.mp hr with rfl
      simp
  · intro tid now cu db db' r hnd h
    obtain ⟨task, hf, _, hdb⟩ := delete_task_ok h
    subst hdb
    have hp := find?_prop hf
    simp only [Bool.and_eq_true, beq_iff_eq] at hp
    refine ⟨status_map_update hnd (find?_mem hf) hp.1 rfl, _, rfl, fun r' hr' => ?_⟩
    rcases List.mem_singleton.mp hr' with rfl
    simp
  · intro tid naid com cu db db' t hnd h
    obtain ⟨task, na, hf, _, _, _, _, hdb⟩ := reassign_task_ok h
    subst hdb
    have hp := find?_prop hf
    simp only [Bool.and_eq_true, beq_iff_eq] at hp
    refine ⟨status_map_update hnd (find?_mem hf) hp.1 rfl, _, rfl, fun r hr => ?_⟩
    rcases List.mem_singleton.mp hr with rfl
    simp
  · intro tid now cu db db' t hnd h
    obtain ⟨task, hf, _, _, hdb⟩ := restore_task_ok h
    subst hdb
    have hp := find?_prop hf
    simp only [Bool.and_eq_true, beq_iff_eq] at hp
    refine ⟨status_map_update hnd (find?_mem hf) hp.1.1 rfl, _, rfl, fun r hr => ?_⟩
    rcases List.mem_singleton.mp hr with rfl
    simp

/-- C3 witness: a title-changing `update_task` on the fixture store leaves
every stored task status unchanged. -/
theorem no_status_transition_operation_witness :
    (newDB db0 (update_task 1 (some "New title") none none none [] alice db0)).tasks.map
        Task.status = db0.tasks.map Task.status := by
  exact (no_status_transition_operation.1 1 (some "New title") none none none [] alice db0
    _ _ (by decide) rfl).1

theorem create_article_flags {ti co : String} {im : List String} {cu : User}
    {db : DB} {a : Article}
    (h : (create_article ti co im cu db).2 = .ok a) :
    a.is_deleted = false ∧ a.deleted_at = none := by
  rw [create_article_eq] at h
  injection h with ha
  rw [← ha]
  exact ⟨rfl, rfl⟩

/-- C8: the soft-delete coherence invariant `is_deleted = false ↔
deleted_at = NULL` is established at creation (task, article, user
registration) and preserved by every mutating endpoint; the two article
endpoints that would set the pair (`delete_article`, `restore_article`) can
never commit at all, which preserves it vacuously. The `update_profile`
conjunct assumes the session user's own row is coherent, since the session
service supplies it from the store. -/
theorem soft_delete_flag_invariant (db : DB) (hinv : dbSDInv db = true) :
    (∀ (ti : String) (de : Option String) (ai : Nat) (du : Option Nat)
       (im : List String) (cu : User) (db' : DB) (t : Task),
      create_task ti de ai du im cu db = .ok (db', t) →
      t.is_deleted = false ∧ t.deleted_at = none ∧ dbSDInv db' = true) ∧
    (∀ (tid : Nat) (ti de : Option String) (as du : Option Nat) (im : List String)
       (cu : User) (db' : DB) (t : Task),
      update_task tid ti de as du im cu db = .ok (db', t) → dbSDInv db' = true) ∧
    (∀ (tid now : Nat) (cu : User) (db' : DB) (r : String),
      delete_task tid now cu db = .ok (db', r) → dbSDInv db' = true) ∧
    (∀ (tid naid : Nat) (com : Option String) (cu : User) (db' : DB) (t : Task),
      reassign_task tid naid com cu db = .ok (db', t) → dbSDInv db' = true) ∧
    (∀ (tid now : Nat) (cu : User) (db' : DB) (t : Task),
      restore_task tid now cu db = .ok (db', t) → dbSDInv db' = true) ∧
    (∀ (ti co : String) (im : List String) (cu : User),
      dbSDInv (create_article ti co im cu db).1 = true ∧
      ∀ a, (create_article ti co im cu db).2 = .ok a →
        a.is_deleted = false ∧ a.deleted_at = none) ∧
    (∀ (aid : Nat) (ti co : Option String) (im : List String) (cu : User)
       (db' : DB) (a : Article),
      update_article aid ti co im cu db = .ok (db', a) → dbSDInv db' = true) ∧
    (∀ (aid now : Nat) (cu : User) (x : DB × String),
      delete_article aid now cu db ≠ .ok x) ∧
    (∀ (aid now : Nat) (cu : User) (x : DB × Article),
      restore_article aid now cu db ≠ .ok x) ∧
    (∀ (un fn em pw sh : String) (db' : DB) (u : User),
      register un fn em pw sh db = .ok (db', u) →
      u.is_deleted = false ∧ u.deleted_at = none ∧ dbSDInv db' = true) ∧
    (∀ (un fn em : Option String) (sh : String) (ph : Option Photo) (cu : User)
       (cache : Cache) (db' : DB) (u : User),
      softDelOK cu.is_deleted cu.deleted_at = true →
      (update_profile un fn em sh ph cu db cache).2 = .ok (db', u) → dbSDInv db' = true) ∧
    (∀ (uid : Nat) (un fn em sh : Option String) (ph : Option Photo) (cu : User)
       (cache c' : Cache) (db' : DB) (u : User),
      admin_update_user uid un fn em sh ph db cu cache = (c', .ok (db', u)) →
      dbSDInv db' = true) ∧
    (∀ (uid : Nat) (pw : String) (cu : User) (cache c' : Cache) (db' : DB) (r : String),
      update_user_password uid pw db cu cache = (c', .ok (db', r)) →
      dbSDInv db' = true) ∧
    (∀ (uid now : Nat) (cu : User) (cache c' : Cache) (db' : DB) (r : String),
      delete_user uid now db cu cache = (c', .ok (db', r)) → dbSDInv db' = true) := by
  refine ⟨?_, ?_, ?_, ?_, ?_, ?_, ?_, ?_, ?_, ?_, ?_, ?_, ?_, ?_⟩
  · intro ti de ai du im cu db' t h
    obtain ⟨u, _, ht, _⟩ := create_task_ok h
    exact ⟨by rw [ht], by rw [ht], sdInv_create_task hinv h⟩
  · intro tid ti de as du im cu db' t h
    exact sdInv_update_task hinv h
  · intro tid now cu db' r h
    exact sdInv_delete_task hinv h
  · intro tid naid com cu db' t h
    exact sdInv_reassign_task hinv h
  · intro tid now cu db' t h
    exact sdInv_restore_task hinv h
  · intro ti co im cu
    exact ⟨sdInv_create_article hinv, fun a h => create_article_flags h⟩
  · intro aid ti co im cu db' a h
    exact sdInv_update_article hinv h
  · intro aid now cu x
    exact delete_article_never_ok aid now cu db x
  · intro aid now cu x
    exact restore_article_never_ok aid now cu db x
  · intro un fn em pw sh db' u h
    obtain ⟨h1, h2, _⟩ := register_ok h
    exact ⟨h1, h2, sdInv_register hinv h⟩
  · intro un fn em sh ph cu cache db' u hcu h
    exact sdInv_update_profile hinv hcu h
  · intro uid un fn em sh ph cu cache c' db' u h
    exact sdInv_admin_update_user hinv h
  · intro uid pw cu cache c' db' r h
    exact sdInv_update_user_password hinv h
  · intro uid now cu cache c' db' r h
    exact sdInv_delete_user hinv h

/-- C8 witness: the fixture store satisfies the invariant, and it still holds
after soft-deleting task 1. -/
theorem soft_delete_flag_invariant_witness :
    dbSDInv db0 = true ∧
    dbSDInv (newDB db0 (delete_task 1 500 alice db0)) = true := by
  refine ⟨by decide, ?_⟩
  exact (soft_delete_flag_invariant db0 (by decide)).2.2.1 1 500 alice _ _ rfl

/-- C9: the read-through contract of every cached read endpoint: a hit returns
the cached value with the cache unchanged and without querying the store; a
miss runs the loader against the store, caches the result under the fixed TTL
policy — 300 s for the list/search views (`user_search:*`, `admin_users:*`),
3600 s for the single-entity profile views (`user_profile:*`) — and returns
it; a profile miss for a missing/soft-deleted user is a 404 with nothing
cached. -/
theorem read_through_cache_contract :
    (∀ (cu : User) (cache : Cache) (v : CacheVal),
      cacheGet cache ("user_profile:" ++ toString cu.user_id) = some v →
      get_profile cu cache = ⟨cache, .ok v, false⟩) ∧
    (∀ (cu : User) (cache : Cache),
      cacheGet cache ("user_profile:" ++ toString cu.user_id) = none →
      get_profile cu cache =
        ⟨cacheSetex cache ("user_profile:" ++ toString cu.user_id) 3600 (.userJson cu),
         .ok (.userJson cu), false⟩) ∧
    (∀ (uid : Nat) (db : DB) (cache : Cache) (v : CacheVal),
      cacheGet cache ("user_profile:" ++ toString uid) = some v →
      get_user_profile uid db cache = ⟨cache, .ok v, false⟩) ∧
    (∀ (uid : Nat) (db : DB) (cache : Cache) (u : User),
      cacheGet cache ("user_profile:" ++ toString uid) = none →
      userProfileLoader db uid = some u →
      get_user_profile uid db cache =
        ⟨cacheSetex cache ("user_profile:" ++ toString uid) 3600 (.userJson u),
         .ok (.userJson u), true⟩) ∧
    (∀ (uid : Nat) (db : DB) (cache : Cache),
      cacheGet cache ("user_profile:" ++ toString uid) = none →
      userProfileLoader db uid = none →
      get_user_profile uid db cache =
        ⟨cache, .error (.http 404 "Пользователь не найден"), true⟩) ∧
    (∀ (un fn em : Option String) (rid : Option Nat) (lim : Nat) (db : DB)
       (cache : Cache) (v : CacheVal),
      cacheGet cache (searchCacheKey un fn em rid lim) = some v →
      search_users un fn em rid lim db cache = ⟨cache, .ok v, false⟩) ∧
    (∀ (un fn em : Option String) (rid : Option Nat) (lim : Nat) (db : DB)
       (cache : Cache),
      cacheGet cache (searchCacheKey un fn em rid lim) = none →
      search_users un fn em rid lim db cache =
        ⟨cacheSetex cache (searchCacheKey un fn em rid lim) 300
           (.usersJson (searchUsersLoader db un fn em rid lim)),
         .ok (.usersJson (searchUsersLoader db un fn em rid lim)), true⟩) ∧
    (∀ (role : Option Nat) (lim : Nat) (db : DB) (cu : User) (cache : Cache)
       (v : CacheVal),
      cu.role_id = ADMIN_ROLE_ID →
      cacheGet cache (adminUsersCacheKey role lim) = some v →
      get_users role lim db cu cache = ⟨cache, .ok v, false⟩) ∧
    (∀ (role : Option Nat) (lim : Nat) (db : DB) (cu : User) (cache : Cache),
      cu.role_id = ADMIN_ROLE_ID →
      cacheGet cache (adminUsersCacheKey role lim) = none →
      get_users role lim db cu cache =
        ⟨cacheSetex cache (adminUsersCacheKey role lim) 300
           (.usersJson (adminUsersLoader db role lim)),
         .ok (.usersJson (adminUsersLoader db role lim)), true⟩) := by
  refine ⟨?_, ?_, ?_, ?_, ?_, ?_, ?_, ?_, ?_⟩
  · intro cu cache v h
    simp [get_profile, h]
  · intro cu cache h
    simp [get_profile, h, CACHE_EXPIRE_SECONDS]
  · intro uid db cache v h
    simp [get_user_profile, h]
  · intro uid db cache u hc hl
    simp [get_user_profile, hc, hl]
  · intro uid db cache hc hl
    simp [get_user_profile, hc, hl]
  · intro un fn em rid lim db cache v h
    simp [search_users, h]
  · intro un fn em rid lim db cache h
    simp [search_users, h]
  · intro role lim db cu cache v hrole h
    simp [get_users, hrole, h]
  · intro role lim db cu cache hrole h
    simp [get_users, hrole, h]

/-- A cache already holding user 2's profile. -/
def profCache : Cache := [{ key := "user_profile:2", value := .userJson bob, ttl := 3600 }]

/-- C9 witness: reading user 2's profile hits `profCache` without touching the
store, and the same read against an empty cache misses, loads `bob` and caches
him for 3600 seconds. -/
theorem read_through_cache_contract_witness :
    get_user_profile 2 db0 profCache = ⟨profCache, .ok (.userJson bob), false⟩ ∧
    get_user_profile 2 db0 [] =
      ⟨cacheSetex [] ("user_profile:" ++ toString 2) 3600 (.userJson bob),
       .ok (.userJson bob), true⟩ := by
  constructor
  · exact read_through_cache_contract.2.2.1 2 db0 profCache (.userJson bob) rfl
  · exact read_through_cache_contract.2.2.2.1 2 db0 [] bob rfl rfl

end APIU
